import Mathlib

/-!
# Verification of the QuantAgent multi-agent orchestration core

A shallow embedding of the four agent nodes of the repository
(`indicator_agent.py`, `pattern_agent.py`, `trend_agent.py`,
`decision_agent.py`) together with proofs about the tool-invocation
protocol, the retry envelopes, the bounded tool-calling loop, the
report-extraction fallback and the transcript handling.

Modelling conventions:
* The reasoning backend (an LLM) is an oracle `Nat → Except String AIMsg`:
  the n-th physical invocation of that backend either returns a response
  or raises an exception carrying the text `str(e)`.
* Auxiliary tools are oracles indexed by the physical invocation count.
* `copy.deepcopy` on the immutable values of this embedding is the
  identity, so "the tool receives a fresh deep copy of
  `state["kline_data"]`" is rendered as value equality with the state
  field.
* `time.sleep` and `print` are side effects with no data flow; sleeps are
  counted, prints dropped.
* Every node additionally produces a trace of the externally visible
  events (backend invocations with the transcript passed, and tool
  invocations with the argument mapping passed) so that properties about
  "which calls were made with which arguments" can be stated.
-/

deriving instance DecidableEq for Except

namespace QuantAgent

/-- Stand-in for the OHLCV candle list `state["kline_data"]`.  The agents
never inspect the candles themselves; they only serialize and forward the
value, so any value type with decidable equality is adequate. -/
abbrev KlineData := List Int

/-- Serialization stand-in for `json.dumps(state["kline_data"], ...)`. -/
def jsonDumpsKline (k : KlineData) : String := toString k

/-- The argument mapping the backend supplies with a tool-invocation
request (`call["args"]`).  The `kline_data` key is singled out because the
gateway overwrites it; all other keys are opaque. -/
structure ToolArgs where
  kline_data : Option KlineData
  extra : List (String × String)
deriving DecidableEq, BEq, Repr

/-- One tool-invocation request emitted by the backend
(`{id, name, args}`). -/
structure ToolCall where
  id : String
  name : String
  args : ToolArgs
deriving DecidableEq, BEq, Repr

/-- A backend (assistant) response: free text plus zero or more
tool-invocation requests.  In `langchain` every `AIMessage` carries the
`tool_calls` attribute (possibly the empty list), which matters for the
indicator agent's fallback scan. -/
structure AIMsg where
  content : String
  tool_calls : List ToolCall
deriving DecidableEq, BEq, Repr

/-- Message content: either a plain string or the two-part image prompt
(`[{type: text, ...}, {type: image_url, ...}]`) used by the pattern and
trend agents. -/
inductive MsgContent where
  | str (s : String)
  | parts (text : String) (imageUrl : String)
deriving DecidableEq, BEq, Repr

/-- A conversation turn.  Only `ai` turns carry the `tool_calls`
attribute; `tool` turns are `ToolMessage`s with a `tool_call_id`. -/
inductive Msg where
  | system (content : String)
  | human (content : MsgContent)
  | ai (m : AIMsg)
  | tool (tool_call_id : String) (content : String)
deriving DecidableEq, BEq, Repr

/-- Python falsiness of a string (`not s`): true iff the string is empty.
Phrased on the character list so that it reduces inside the kernel. -/
def pyFalsy (s : String) : Bool := s.data.isEmpty

/-- Python blankness (`not s.strip()`): true iff every character is
whitespace (an empty string is blank). -/
def pyBlank (s : String) : Bool := s.data.all Char.isWhitespace

/-- Python truthiness of an optional string value
(`None` and `""` are falsy). -/
def optTruthy : Option String → Bool
  | none => false
  | some s => !(pyFalsy s)

/-- Externally visible events of one agent step: a tool-LLM invocation
with the transcript passed, a graph-LLM invocation, or a tool invocation
with the (gateway-rewritten) argument mapping. -/
inductive Event where
  | llmCall (msgs : List Msg)
  | graphCall (msgs : List Msg)
  | toolInv (nm : String) (args : ToolArgs)
deriving DecidableEq, BEq, Repr

/-- Is `needle` a prefix of the character list? -/
def prefChar : List Char → List Char → Bool
  | [], _ => true
  | _ :: _, [] => false
  | a :: as, b :: bs => a == b && prefChar as bs

/-- Does `needle` occur as a contiguous subsequence of the list? -/
def containsSeq (needle : List Char) : List Char → Bool
  | [] => prefChar needle []
  | b :: bs => prefChar needle (b :: bs) || containsSeq needle bs

/-- `"needle in hay"`: Python substring containment. -/
def strContains (hay needle : String) : Bool :=
  containsSeq needle.data hay.data

/-- `s.lower()`: ASCII lowercasing, character by character. -/
def lowerStr (s : String) : String := ⟨s.data.map Char.toLower⟩

/-! ## Retry envelopes

Two source variants exist:
* `trend_agent.py` lines 14-32 (module level): sleeps only between
  attempts (`if attempt < retries - 1: time.sleep(...)`);
* `pattern_agent.py` lines 58-72 (local `invoke_with_retry`): sleeps
  after every failed attempt, including the last.

Both catch `RateLimitError` and every other `Exception` alike (the two
branches differ only in the printed text) and raise
`RuntimeError("超过最大重试次数")` after exhausting the attempts.

The fallible operation is modelled as `op : Nat → Except String α`, the
outcome of the n-th physical attempt.  The envelope reports the result,
the number of attempts performed and the number of sleeps performed. -/

structure RetryOut (α : Type) where
  result : Except String α
  calls : Nat
  waits : Nat
deriving Repr

/-- `trend_agent.invoke_with_retry`, body of `for attempt in
range(retries)`.  Structural recursion on the remaining fuel
(`fuel = retries - attempt` at every call). -/
def trendRetryGo (op : Nat → Except String α) (retries : Nat) :
    Nat → Nat → RetryOut α
  | _attempt, 0 => ⟨.error "超过最大重试次数", 0, 0⟩
  | attempt, fuel + 1 =>
    match op attempt with
    | .ok v => ⟨.ok v, 1, 0⟩
    | .error _ =>
      -- `if attempt < retries - 1: time.sleep(wait_sec)`
      let w := if attempt < retries - 1 then 1 else 0
      let rest := trendRetryGo op retries (attempt + 1) fuel
      ⟨rest.result, rest.calls + 1, rest.waits + w⟩

/-- `trend_agent.py` lines 14-32: retry a call, sleeping between
attempts, raising `RuntimeError("超过最大重试次数")` on exhaustion. -/
def invoke_with_retry (op : Nat → Except String α) (retries : Nat) : RetryOut α :=
  trendRetryGo op retries 0 retries

/-- `pattern_agent.py` lines 58-72, body of `for attempt in
range(retries)`: identical control flow except that `time.sleep` runs
after every failed attempt. -/
def patternRetryGo (op : Nat → Except String α) :
    Nat → Nat → RetryOut α
  | _attempt, 0 => ⟨.error "超过最大重试次数", 0, 0⟩
  | attempt, fuel + 1 =>
    match op attempt with
    | .ok v => ⟨.ok v, 1, 0⟩
    | .error _ =>
      let rest := patternRetryGo op (attempt + 1) fuel
      ⟨rest.result, rest.calls + 1, rest.waits + 1⟩

/-- The pattern agent's local `invoke_with_retry` (lines 58-72). -/
def pattern_invoke_with_retry (op : Nat → Except String α) (retries : Nat) :
    RetryOut α :=
  patternRetryGo op 0 retries

/-! ### Envelope lemmas -/

theorem trendRetryGo_succeeds (op : Nat → Except String α) (retries : Nat)
    (k : Nat) (v : α) :
    ∀ fuel attempt, attempt + fuel = retries → attempt ≤ k → k < retries →
    (∀ i, attempt ≤ i → i < k → (op i).isOk = false) →
    op k = .ok v →
    trendRetryGo op retries attempt fuel =
      ⟨.ok v, k - attempt + 1, k - attempt⟩ := by
  intro fuel
  induction fuel with
  | zero => intro attempt h hak hk _ _; omega
  | succ n ih =>
    intro attempt h hak hk hfail hok
    by_cases hek : attempt = k
    · subst hek
      simp [trendRetryGo, hok]
    · have hlt : attempt < k := lt_of_le_of_ne hak hek
      have hfa : (op attempt).isOk = false := hfail attempt le_rfl hlt
      match hop : op attempt with
      | .ok w => rw [hop] at hfa; simp [Except.isOk, Except.toBool] at hfa
      | .error e =>
        have hrest := ih (attempt + 1) (by omega) (by omega) hk
          (fun i hi hik => hfail i (by omega) hik) hok
        simp only [trendRetryGo, hop, hrest]
        have hw : attempt < retries - 1 := by omega
        simp only [hw, if_pos]
        simp only [RetryOut.mk.injEq]
        refine ⟨trivial, by omega, by omega⟩

theorem trendRetryGo_exhausts (op : Nat → Except String α) (retries : Nat) :
    ∀ fuel attempt, attempt + fuel = retries →
    (∀ i, attempt ≤ i → i < retries → (op i).isOk = false) →
    (trendRetryGo op retries attempt fuel).result = .error "超过最大重试次数" ∧
    (trendRetryGo op retries attempt fuel).calls = fuel := by
  intro fuel
  induction fuel with
  | zero => intro attempt _ _; simp [trendRetryGo]
  | succ n ih =>
    intro attempt h hfail
    have hfa : (op attempt).isOk = false := hfail attempt le_rfl (by omega)
    match hop : op attempt with
    | .ok w => rw [hop] at hfa; simp [Except.isOk, Except.toBool] at hfa
    | .error e =>
      have hrest := ih (attempt + 1) (by omega)
        (fun i hi hik => hfail i (by omega) hik)
      simp only [trendRetryGo, hop]
      exact ⟨hrest.1, by simp [hrest.2]⟩

theorem patternRetryGo_succeeds (op : Nat → Except String α)
    (k : Nat) (v : α) :
    ∀ fuel attempt, attempt ≤ k → k < attempt + fuel →
    (∀ i, attempt ≤ i → i < k → (op i).isOk = false) →
    op k = .ok v →
    patternRetryGo op attempt fuel =
      ⟨.ok v, k - attempt + 1, k - attempt⟩ := by
  intro fuel
  induction fuel with
  | zero => intro attempt hak hk _ _; omega
  | succ n ih =>
    intro attempt hak hk hfail hok
    by_cases hek : attempt = k
    · subst hek
      simp [patternRetryGo, hok]
    · have hlt : attempt < k := lt_of_le_of_ne hak hek
      have hfa : (op attempt).isOk = false := hfail attempt le_rfl hlt
      match hop : op attempt with
      | .ok w => rw [hop] at hfa; simp [Except.isOk, Except.toBool] at hfa
      | .error e =>
        have hrest := ih (attempt + 1) (by omega) (by omega)
          (fun i hi hik => hfail i (by omega) hik) hok
        simp only [patternRetryGo, hop, hrest]
        simp only [RetryOut.mk.injEq]
        refine ⟨trivial, by omega, by omega⟩

theorem patternRetryGo_exhausts (op : Nat → Except String α) :
    ∀ fuel attempt,
    (∀ i, attempt ≤ i → i < attempt + fuel → (op i).isOk = false) →
    (patternRetryGo op attempt fuel).result = .error "超过最大重试次数" ∧
    (patternRetryGo op attempt fuel).calls = fuel := by
  intro fuel
  induction fuel with
  | zero => intro attempt _; simp [patternRetryGo]
  | succ n ih =>
    intro attempt hfail
    have hfa : (op attempt).isOk = false := hfail attempt le_rfl (by omega)
    match hop : op attempt with
    | .ok w => rw [hop] at hfa; simp [Except.isOk, Except.toBool] at hfa
    | .error e =>
      have hrest := ih (attempt + 1)
        (fun i hi hik => hfail i (by omega) (by omega))
      simp only [patternRetryGo, hop]
      exact ⟨hrest.1, by simp [hrest.2]⟩

/-! ## Tool retry of the pattern agent (`invoke_tool_with_retry`)

`pattern_agent.py` lines 10-23: re-invoke the artifact tool while the
result's `pattern_image` field is falsy, up to `retries` attempts with a
`wait_sec`-second sleep after each miss, raising
`RuntimeError("多次重试后仍未生成图像")` when every attempt missed. -/

/-- Structured result of the `generate_kline_image` tool: a mapping that
may or may not carry the `pattern_image` payload. -/
structure PToolResult where
  pattern_image : Option String
deriving DecidableEq, BEq, Repr

/-- Body of `for attempt in range(retries)` of `invoke_tool_with_retry`.
`op` is the tool's result on the n-th physical invocation (the argument
mapping is fixed by the caller); the second component counts the
invocations performed. -/
def invokeToolGo (op : Nat → PToolResult) :
    Nat → Nat → Except String PToolResult × Nat
  | _attempt, 0 => (.error "多次重试后仍未生成图像", 0)
  | attempt, fuel + 1 =>
    let result := op attempt
    -- `img_b64 = result.get("pattern_image"); if img_b64: return result`
    if optTruthy result.pattern_image then (.ok result, 1)
    else
      let rest := invokeToolGo op (attempt + 1) fuel
      (rest.1, rest.2 + 1)

/-- `pattern_agent.py` lines 10-23. -/
def invoke_tool_with_retry (op : Nat → PToolResult) (retries : Nat) :
    Except String PToolResult × Nat :=
  invokeToolGo op 0 retries

theorem invokeToolGo_exhausts (op : Nat → PToolResult) :
    ∀ fuel attempt,
    (∀ i, attempt ≤ i → i < attempt + fuel →
      optTruthy (op i).pattern_image = false) →
    invokeToolGo op attempt fuel = (.error "多次重试后仍未生成图像", fuel) := by
  intro fuel
  induction fuel with
  | zero => intro attempt _; simp [invokeToolGo]
  | succ n ih =>
    intro attempt hmiss
    have hma : optTruthy (op attempt).pattern_image = false :=
      hmiss attempt le_rfl (by omega)
    have hrest := ih (attempt + 1)
      (fun i hi hik => hmiss i (by omega) (by omega))
    simp only [invokeToolGo, hma, Bool.false_eq_true, if_false, hrest]

theorem invokeToolGo_hits (op : Nat → PToolResult) (k : Nat) :
    ∀ fuel attempt, attempt ≤ k → k < attempt + fuel →
    (∀ i, attempt ≤ i → i < k → optTruthy (op i).pattern_image = false) →
    optTruthy (op k).pattern_image = true →
    invokeToolGo op attempt fuel = (.ok (op k), k - attempt + 1) := by
  intro fuel
  induction fuel with
  | zero => intro attempt hak hk _ _; omega
  | succ n ih =>
    intro attempt hak hk hmiss hhit
    by_cases hek : attempt = k
    · subst hek
      simp [invokeToolGo, hhit]
    · have hlt : attempt < k := lt_of_le_of_ne hak hek
      have hma : optTruthy (op attempt).pattern_image = false :=
        hmiss attempt le_rfl hlt
      have hrest := ih (attempt + 1) (by omega) (by omega)
        (fun i hi hik => hmiss i (by omega) hik) hhit
      simp only [invokeToolGo, hma, Bool.false_eq_true, if_false, hrest]
      exact Prod.ext rfl (by omega)

/-! ## Indicator agent (`indicator_agent.py`)

Direct tool-calling agent: one initial backend exchange (lines 53-69),
then a `while iteration < max_iterations` tool-calling loop with
`max_iterations = 5` (lines 71-93), then report extraction with fallback
(lines 95-117).  No retry envelope wraps any call. -/

/-- The input slice of the shared state record the indicator node reads. -/
structure IndState where
  time_frame : String
  kline_data : KlineData
  messages : List Msg
deriving Repr

/-- External collaborators of the indicator node: the bound backend and
the indicator tools.  `tool nm n args` is the (serialized,
`json.dumps`-ed) result of the n-th physical tool invocation of the run.
The tools' numeric output is out of scope, so the serialized result is
opaque. -/
structure IndEnv where
  llm : Nat → Except String AIMsg
  tool : String → Nat → ToolArgs → String

/-- The tool registry bound to the backend (lines 21-27). -/
def indicatorTools : List String :=
  ["compute_macd", "compute_rsi", "compute_roc", "compute_stoch", "compute_willr"]

/-- The mapping returned by the node (lines 114-117). -/
structure IndOut where
  messages : List Msg
  indicator_report : String
deriving DecidableEq, Repr
/-- Tool-execution block (lines 59-69 and identically 83-93): for each
requested call, overwrite `kline_data` with a deep copy of
`state["kline_data"]`, look the tool up by exact name
(`next(t for t in tools if t.name == tool_name)`, `StopIteration` when
absent), invoke it and append a `ToolMessage` tagged with the request id.
Returns the tool-result turns to append and the next tool-invocation
counter, plus the trace of tool invocations performed. -/
def indRunToolCalls (env : IndEnv) (st : IndState) :
    List ToolCall → Nat → Except String (List Msg × Nat) × List Event
  | [], toolCtr => (.ok ([], toolCtr), [])
  | call :: restCalls, toolCtr =>
    let tool_args : ToolArgs := { call.args with kline_data := some st.kline_data }
    match indicatorTools.find? (fun t => t == call.name) with
    | none => (.error "StopIteration", [])
    | some nm =>
      let tool_result := env.tool nm toolCtr tool_args
      let msg := Msg.tool call.id tool_result
      let rest := indRunToolCalls env st restCalls (toolCtr + 1)
      (rest.1.map (fun p => (msg :: p.1, p.2)),
       Event.toolInv nm tool_args :: rest.2)

/-- The `while iteration < max_iterations` loop (lines 75-93), structural
on the remaining iterations.  Each round invokes the backend, appends the
response, stops if it carries no tool-invocation requests, otherwise
executes the tools; when the last permitted round still carried requests,
that round's response is nonetheless taken as final. -/
def indicatorLoop (env : IndEnv) (st : IndState) :
    Nat → List Msg → Nat → Nat → Except String (AIMsg × List Msg) × List Event
  | 0, _msgs, _llmCtr, _toolCtr =>
    -- not reachable from the node, which enters with `max_iterations = 5`
    (.error "max_iterations exhausted before any response", [])
  | fuel + 1, msgs, llmCtr, toolCtr =>
    match env.llm llmCtr with
    | .error e => (.error e, [Event.llmCall msgs])
    | .ok final_response =>
      let msgs1 := msgs ++ [Msg.ai final_response]
      if final_response.tool_calls.isEmpty then
        (.ok (final_response, msgs1), [Event.llmCall msgs])
      else
        let tr := indRunToolCalls env st final_response.tool_calls toolCtr
        match tr.1 with
        | .error e => (.error e, Event.llmCall msgs :: tr.2)
        | .ok (tmsgs, toolCtr2) =>
          let msgs2 := msgs1 ++ tmsgs
          if fuel = 0 then
            -- `iteration < max_iterations` now fails: exit with this response
            (.ok (final_response, msgs2), Event.llmCall msgs :: tr.2)
          else
            let res := indicatorLoop env st fuel msgs2 (llmCtr + 1) toolCtr2
            (res.1, Event.llmCall msgs :: (tr.2 ++ res.2))

/-- One step of the backward fallback scan (lines 101-110): a turn
qualifies when it has truthy string content with non-blank strip and does
not carry the `tool_calls` attribute.  Only assistant (`ai`) turns carry
that attribute, so every assistant turn is skipped; human turns with
multi-part content fail the `isinstance(str)` test. -/
def fallbackCandidate : Msg → Option String
  | .system s => if !(pyFalsy s) && !(pyBlank s) then some s else none
  | .human (.str s) => if !(pyFalsy s) && !(pyBlank s) then some s else none
  | .human (.parts _ _) => none
  | .ai _ => none
  | .tool _ s => if !(pyFalsy s) && !(pyBlank s) then some s else none

/-- Report extraction (lines 95-116, the `final_response` present case):
keep the final content unless it is empty or whitespace-only, in which
case scan the transcript backward for a qualifying turn; the final
`report_content if report_content else "技术指标分析完成。"` guard replaces a
falsy result with the literal default. -/
def extractReportInd (c : String) (msgs : List Msg) : String :=
  let report_content :=
    if pyFalsy c || pyBlank c then
      match msgs.reverse.findSome? fallbackCandidate with
      | some s => s
      | none => c
    else c
  if pyFalsy report_content then "技术指标分析完成。" else report_content

/-- Body of `indicator_agent_node` after the transcript seeding of lines
49-51, parameterized by the seeded transcript `messages0`. -/
def indicatorCore (env : IndEnv) (st : IndState) (messages0 : List Msg) :
    Except String IndOut × List Event :=
  match env.llm 0 with
  | .error e => (.error e, [Event.llmCall messages0])
  | .ok ai_response =>
    let messages1 := messages0 ++ [Msg.ai ai_response]
    let step2 :=
      if ai_response.tool_calls.isEmpty then
        (Except.ok (([] : List Msg), 0), ([] : List Event))
      else indRunToolCalls env st ai_response.tool_calls 0
    match step2.1 with
    | .error e => (.error e, Event.llmCall messages0 :: step2.2)
    | .ok (tmsgs, toolCtr) =>
      let messages2 := messages1 ++ tmsgs
      let res := indicatorLoop env st 5 messages2 1 toolCtr
      match res.1 with
      | .error e =>
        (.error e, Event.llmCall messages0 :: (step2.2 ++ res.2))
      | .ok (final_response, messages3) =>
        (.ok ⟨messages3, extractReportInd final_response.content messages3⟩,
         Event.llmCall messages0 :: (step2.2 ++ res.2))

/-- `indicator_agent_node` (lines 19-117): seed the transcript with a
single human turn when the state's transcript is empty (lines 49-51),
then run the exchange. -/
def indicator_agent_node (env : IndEnv) (st : IndState) :
    Except String IndOut × List Event :=
  indicatorCore env st
    (if st.messages.isEmpty then [Msg.human (.str "开始技术指标分析。")]
     else st.messages)

/-! ### Indicator lemmas -/

/-- An event respects the authoritative dataset when, if it is a tool
invocation, the `kline_data` argument it carries equals the state's. -/
def klineRespected (k : KlineData) : Event → Bool
  | .toolInv _ a => decide (a.kline_data = some k)
  | _ => true

/-- Number of backend invocations recorded in a trace. -/
def llmCount : List Event → Nat
  | [] => 0
  | .llmCall _ :: rest => llmCount rest + 1
  | .graphCall _ :: rest => llmCount rest
  | .toolInv _ _ :: rest => llmCount rest

theorem llmCount_append (a b : List Event) :
    llmCount (a ++ b) = llmCount a + llmCount b := by
  induction a with
  | nil => simp [llmCount]
  | cons e rest ih => cases e <;> simp [llmCount, ih] <;> try omega

theorem indRunToolCalls_kline (env : IndEnv) (st : IndState) :
    ∀ calls toolCtr,
    ((indRunToolCalls env st calls toolCtr).2).all
      (klineRespected st.kline_data) = true := by
  intro calls
  induction calls with
  | nil => intro toolCtr; simp [indRunToolCalls]
  | cons call restCalls ih =>
    intro toolCtr
    simp only [indRunToolCalls]
    cases hf : indicatorTools.find? (fun t => t == call.name) with
    | none => simp
    | some nm => simp [klineRespected, ih (toolCtr + 1)]

theorem indRunToolCalls_llmCount (env : IndEnv) (st : IndState) :
    ∀ calls toolCtr,
    llmCount ((indRunToolCalls env st calls toolCtr).2) = 0 := by
  intro calls
  induction calls with
  | nil => intro toolCtr; simp [indRunToolCalls, llmCount]
  | cons call restCalls ih =>
    intro toolCtr
    simp only [indRunToolCalls]
    cases hf : indicatorTools.find? (fun t => t == call.name) with
    | none => simp [llmCount]
    | some nm => simp [llmCount, ih (toolCtr + 1)]

theorem indicatorLoop_kline (env : IndEnv) (st : IndState) :
    ∀ fuel msgs llmCtr toolCtr,
    ((indicatorLoop env st fuel msgs llmCtr toolCtr).2).all
      (klineRespected st.kline_data) = true := by
  intro fuel
  induction fuel with
  | zero => intro msgs llmCtr toolCtr; simp [indicatorLoop]
  | succ n ih =>
    intro msgs llmCtr toolCtr
    simp only [indicatorLoop]
    cases hl : env.llm llmCtr with
    | error e => simp [klineRespected]
    | ok final_response =>
      by_cases he : final_response.tool_calls.isEmpty
      · simp [he, klineRespected]
      · simp only [he, Bool.false_eq_true, if_false]
        have htool := indRunToolCalls_kline env st final_response.tool_calls toolCtr
        cases hr : (indRunToolCalls env st final_response.tool_calls toolCtr).1 with
        | error e => simp only [hr]; simp [klineRespected, htool]
        | ok p =>
          cases p with
          | mk tmsgs toolCtr2 =>
            simp only [hr]
            by_cases hn : n = 0
            · simp [hn, klineRespected, htool]
            · simp only [hn, if_false]
              have hrec := ih (msgs ++ [Msg.ai final_response] ++ tmsgs)
                (llmCtr + 1) toolCtr2
              rw [List.all_cons, List.all_append, htool, hrec]
              rfl

theorem indicatorLoop_llmCount (env : IndEnv) (st : IndState) :
    ∀ fuel msgs llmCtr toolCtr,
    llmCount ((indicatorLoop env st fuel msgs llmCtr toolCtr).2) ≤ fuel := by
  intro fuel
  induction fuel with
  | zero => intro msgs llmCtr toolCtr; simp [indicatorLoop, llmCount]
  | succ n ih =>
    intro msgs llmCtr toolCtr
    simp only [indicatorLoop]
    cases hl : env.llm llmCtr with
    | error e => simp [llmCount]
    | ok final_response =>
      by_cases he : final_response.tool_calls.isEmpty
      · simp [he, llmCount]
      · simp only [he, Bool.false_eq_true, if_false]
        have htool := indRunToolCalls_llmCount env st final_response.tool_calls toolCtr
        cases hr : (indRunToolCalls env st final_response.tool_calls toolCtr).1 with
        | error e => simp only [hr]; simp [llmCount, htool]
        | ok p =>
          cases p with
          | mk tmsgs toolCtr2 =>
            simp only [hr]
            by_cases hn : n = 0
            · simp [hn, llmCount, htool]
            · simp only [hn, if_false]
              have hrec := ih (msgs ++ [Msg.ai final_response] ++ tmsgs)
                (llmCtr + 1) toolCtr2
              simp only [llmCount, llmCount_append, htool]
              omega

theorem indicatorLoop_prefix (env : IndEnv) (st : IndState) :
    ∀ fuel msgs llmCtr toolCtr fr msgs2,
    (indicatorLoop env st fuel msgs llmCtr toolCtr).1 = .ok (fr, msgs2) →
    msgs <+: msgs2 := by
  intro fuel
  induction fuel with
  | zero => intro msgs llmCtr toolCtr fr msgs2 h; simp [indicatorLoop] at h
  | succ n ih =>
    intro msgs llmCtr toolCtr fr msgs2 h
    simp only [indicatorLoop] at h
    cases hl : env.llm llmCtr with
    | error e => rw [hl] at h; simp at h
    | ok final_response =>
      rw [hl] at h
      by_cases he : final_response.tool_calls.isEmpty
      · simp only [he, if_true] at h
        simp only [Except.ok.injEq, Prod.mk.injEq] at h
        obtain ⟨-, h2⟩ := h
        subst h2
        exact List.prefix_append msgs _
      · simp only [he, Bool.false_eq_true, if_false] at h
        cases hr : (indRunToolCalls env st final_response.tool_calls toolCtr).1 with
        | error e => rw [hr] at h; simp at h
        | ok p =>
          cases p with
          | mk tmsgs toolCtr2 =>
            rw [hr] at h
            by_cases hn : n = 0
            · simp only [hn, if_true] at h
              simp only [Except.ok.injEq, Prod.mk.injEq] at h
              obtain ⟨-, h2⟩ := h
              subst h2
              exact (List.prefix_append msgs _).trans (List.prefix_append _ tmsgs)
            · simp only [hn, if_false] at h
              have := ih (msgs ++ [Msg.ai final_response] ++ tmsgs)
                (llmCtr + 1) toolCtr2 fr msgs2 h
              exact ((List.prefix_append msgs _).trans
                (List.prefix_append _ tmsgs)).trans this

theorem indRunToolCalls_ok (env : IndEnv) (st : IndState) :
    ∀ calls toolCtr,
    (∀ c ∈ calls, (indicatorTools.find? (fun t => t == c.name)).isSome = true) →
    ((indRunToolCalls env st calls toolCtr).1).isOk = true := by
  intro calls
  induction calls with
  | nil => intro toolCtr _; simp [indRunToolCalls, Except.isOk, Except.toBool]
  | cons call restCalls ih =>
    intro toolCtr hval
    have hc := hval call (List.mem_cons_self call restCalls)
    simp only [indRunToolCalls]
    cases hf : indicatorTools.find? (fun t => t == call.name) with
    | none => rw [hf] at hc; simp at hc
    | some nm =>
      have hrest := ih (toolCtr + 1)
        (fun c hcm => hval c (List.mem_cons_of_mem call hcm))
      cases hr : (indRunToolCalls env st restCalls (toolCtr + 1)).1 with
      | error e => rw [hr] at hrest; simp [Except.isOk, Except.toBool] at hrest
      | ok p => simp [hr, Except.isOk, Except.toBool, Except.map]

theorem indicatorLoop_allTools (env : IndEnv) (st : IndState) (r : Nat → AIMsg)
    (henv : ∀ i, env.llm i = .ok (r i))
    (htc : ∀ i, (r i).tool_calls ≠ [])
    (hnm : ∀ i c, c ∈ (r i).tool_calls →
      (indicatorTools.find? (fun t => t == c.name)).isSome = true) :
    ∀ fuel msgs llmCtr toolCtr, fuel ≠ 0 →
    (∃ msgs2, (indicatorLoop env st fuel msgs llmCtr toolCtr).1 =
      .ok (r (llmCtr + fuel - 1), msgs2)) ∧
    llmCount (indicatorLoop env st fuel msgs llmCtr toolCtr).2 = fuel := by
  intro fuel
  induction fuel with
  | zero => intro msgs llmCtr toolCtr h; exact absurd rfl h
  | succ n ih =>
    intro msgs llmCtr toolCtr _
    have he : (r llmCtr).tool_calls.isEmpty = false := by
      cases h' : (r llmCtr).tool_calls with
      | nil => exact absurd h' (htc llmCtr)
      | cons a l => rfl
    have hok := indRunToolCalls_ok env st (r llmCtr).tool_calls toolCtr
      (fun c hcm => hnm llmCtr c hcm)
    simp only [indicatorLoop, henv llmCtr, he, Bool.false_eq_true, if_false]
    cases hr : (indRunToolCalls env st (r llmCtr).tool_calls toolCtr).1 with
    | error e => rw [hr] at hok; simp [Except.isOk, Except.toBool] at hok
    | ok p =>
      cases p with
      | mk tmsgs toolCtr2 =>
        have htno := indRunToolCalls_llmCount env st (r llmCtr).tool_calls toolCtr
        by_cases hn : n = 0
        · subst hn
          refine ⟨⟨msgs ++ [Msg.ai (r llmCtr)] ++ tmsgs, by simp⟩, ?_⟩
          simp [llmCount, htno]
        · simp only [hn, if_false]
          have hrec := ih (msgs ++ [Msg.ai (r llmCtr)] ++ tmsgs)
            (llmCtr + 1) toolCtr2 hn
          constructor
          · obtain ⟨m2, hm2⟩ := hrec.1
            refine ⟨m2, ?_⟩
            rw [hm2]
            have : llmCtr + 1 + n - 1 = llmCtr + (n + 1) - 1 := by omega
            rw [this]
          · simp only [llmCount, llmCount_append, htno, hrec.2]
            omega

theorem fallbackCandidate_nonempty :
    ∀ m s, fallbackCandidate m = some s → pyFalsy s = false := by
  intro m s h
  cases m with
  | system c =>
    simp only [fallbackCandidate] at h
    split at h
    · next hcond =>
      obtain ⟨h1, -⟩ := Bool.and_eq_true_iff.mp hcond
      cases h
      simpa using h1
    · exact absurd h (by simp)
  | human c =>
    cases c with
    | str cs =>
      simp only [fallbackCandidate] at h
      split at h
      · next hcond =>
        obtain ⟨h1, -⟩ := Bool.and_eq_true_iff.mp hcond
        cases h
        simpa using h1
      · exact absurd h (by simp)
    | parts t u => simp [fallbackCandidate] at h
  | ai m => simp [fallbackCandidate] at h
  | tool i c =>
    simp only [fallbackCandidate] at h
    split at h
    · next hcond =>
      obtain ⟨h1, -⟩ := Bool.and_eq_true_iff.mp hcond
      cases h
      simpa using h1
    · exact absurd h (by simp)

theorem extractReportInd_ne_empty (c : String) (msgs : List Msg) :
    extractReportInd c msgs ≠ "" := by
  simp only [extractReportInd]
  split
  · cases hs : List.findSome? fallbackCandidate msgs.reverse with
    | some s =>
      simp only [hs]
      split
      · decide
      · next hne => exact fun h => hne (by rw [h]; decide)
    | none =>
      simp only [hs]
      split
      · decide
      · next hne => exact fun h => hne (by rw [h]; decide)
  · split
    · decide
    · next hne => exact fun h => hne (by rw [h]; decide)

theorem extractReportInd_nonblank (c : String) (msgs : List Msg)
    (h : pyBlank c = false) : extractReportInd c msgs = c := by
  have hc : pyFalsy c = false := by
    unfold pyFalsy
    cases hd : c.data with
    | nil =>
      exfalso
      have hb : pyBlank c = true := by unfold pyBlank; rw [hd]; rfl
      exact absurd (hb.symm.trans h) (by decide)
    | cons a l => rfl
  simp [extractReportInd, hc, h]

theorem indicatorCore_kline (env : IndEnv) (st : IndState)
    (messages0 : List Msg) :
    ((indicatorCore env st messages0).2).all
      (klineRespected st.kline_data) = true := by
  simp only [indicatorCore]
  cases hl : env.llm 0 with
  | error e => simp [klineRespected]
  | ok ai_response =>
    by_cases he : ai_response.tool_calls.isEmpty
    · simp only [he, if_true]
      cases hres : (indicatorLoop env st 5 (messages0 ++ [Msg.ai ai_response] ++ [])
          1 0).1 with
      | error e =>
        simp only [hres]
        rw [List.all_cons, List.nil_append, indicatorLoop_kline]
        rfl
      | ok p =>
        cases p with
        | mk final_response messages3 =>
          simp only [hres]
          rw [List.all_cons, List.nil_append, indicatorLoop_kline]
          rfl
    · simp only [he, Bool.false_eq_true, if_false]
      have htool := indRunToolCalls_kline env st ai_response.tool_calls 0
      cases hr : (indRunToolCalls env st ai_response.tool_calls 0).1 with
      | error e =>
        simp only [hr]
        rw [List.all_cons, htool]
        rfl
      | ok p =>
        cases p with
        | mk tmsgs toolCtr =>
          simp only [hr]
          cases hres : (indicatorLoop env st 5
              (messages0 ++ [Msg.ai ai_response] ++ tmsgs) 1 toolCtr).1 with
          | error e =>
            simp only [hres]
            rw [List.all_cons, List.all_append, htool, indicatorLoop_kline]
            rfl
          | ok q =>
            cases q with
            | mk final_response messages3 =>
              simp only [hres]
              rw [List.all_cons, List.all_append, htool, indicatorLoop_kline]
              rfl

theorem indicatorCore_llmCount (env : IndEnv) (st : IndState)
    (messages0 : List Msg) :
    llmCount (indicatorCore env st messages0).2 ≤ 6 := by
  simp only [indicatorCore]
  cases hl : env.llm 0 with
  | error e => simp [llmCount]
  | ok ai_response =>
    by_cases he : ai_response.tool_calls.isEmpty
    · simp only [he, if_true]
      have hloop := indicatorLoop_llmCount env st 5
        (messages0 ++ [Msg.ai ai_response] ++ []) 1 0
      cases hres : (indicatorLoop env st 5 (messages0 ++ [Msg.ai ai_response] ++ [])
          1 0).1 with
      | error e =>
        simp only [hres, llmCount, List.nil_append]
        omega
      | ok p =>
        cases p with
        | mk final_response messages3 =>
          simp only [hres, llmCount, List.nil_append]
          omega
    · simp only [he, Bool.false_eq_true, if_false]
      have htool := indRunToolCalls_llmCount env st ai_response.tool_calls 0
      cases hr : (indRunToolCalls env st ai_response.tool_calls 0).1 with
      | error e =>
        simp only [hr, llmCount]
        omega
      | ok p =>
        cases p with
        | mk tmsgs toolCtr =>
          simp only [hr]
          have hloop := indicatorLoop_llmCount env st 5
            (messages0 ++ [Msg.ai ai_response] ++ tmsgs) 1 toolCtr
          cases hres : (indicatorLoop env st 5
              (messages0 ++ [Msg.ai ai_response] ++ tmsgs) 1 toolCtr).1 with
          | error e =>
            simp only [hres, llmCount, llmCount_append, htool]
            omega
          | ok q =>
            cases q with
            | mk final_response messages3 =>
              simp only [hres, llmCount, llmCount_append, htool]
              omega

theorem indicatorCore_prefix (env : IndEnv) (st : IndState)
    (messages0 : List Msg) (out : IndOut) :
    (indicatorCore env st messages0).1 = .ok out →
    messages0 <+: out.messages := by
  simp only [indicatorCore]
  cases hl : env.llm 0 with
  | error e => intro h; simp at h
  | ok ai_response =>
    by_cases he : ai_response.tool_calls.isEmpty
    · simp only [he, if_true]
      cases hres : (indicatorLoop env st 5 (messages0 ++ [Msg.ai ai_response] ++ [])
          1 0).1 with
      | error e => intro h; simp [hres] at h
      | ok p =>
        cases p with
        | mk final_response messages3 =>
          intro h
          simp only [hres, Except.ok.injEq] at h
          have hpre := indicatorLoop_prefix env st 5
            (messages0 ++ [Msg.ai ai_response] ++ []) 1 0 final_response
            messages3 hres
          rw [← h]
          exact ((List.prefix_append messages0 _).trans
            (List.prefix_append _ [])).trans hpre
    · simp only [he, Bool.false_eq_true, if_false]
      cases hr : (indRunToolCalls env st ai_response.tool_calls 0).1 with
      | error e => intro h; simp [hr] at h
      | ok p =>
        cases p with
        | mk tmsgs toolCtr =>
          simp only [hr]
          cases hres : (indicatorLoop env st 5
              (messages0 ++ [Msg.ai ai_response] ++ tmsgs) 1 toolCtr).1 with
          | error e => intro h; simp [hres] at h
          | ok q =>
            cases q with
            | mk final_response messages3 =>
              intro h
              simp only [hres, Except.ok.injEq] at h
              have hpre := indicatorLoop_prefix env st 5
                (messages0 ++ [Msg.ai ai_response] ++ tmsgs) 1 toolCtr
                final_response messages3 hres
              rw [← h]
              exact ((List.prefix_append messages0 _).trans
                (List.prefix_append _ tmsgs)).trans hpre

theorem indicatorCore_report_ne (env : IndEnv) (st : IndState)
    (messages0 : List Msg) (out : IndOut) :
    (indicatorCore env st messages0).1 = .ok out →
    out.indicator_report ≠ "" := by
  simp only [indicatorCore]
  cases hl : env.llm 0 with
  | error e => intro h; simp at h
  | ok ai_response =>
    by_cases he : ai_response.tool_calls.isEmpty
    · simp only [he, if_true]
      cases hres : (indicatorLoop env st 5 (messages0 ++ [Msg.ai ai_response] ++ [])
          1 0).1 with
      | error e => intro h; simp [hres] at h
      | ok p =>
        cases p with
        | mk final_response messages3 =>
          intro h
          simp only [hres, Except.ok.injEq] at h
          rw [← h]
          exact extractReportInd_ne_empty final_response.content messages3
    · simp only [he, Bool.false_eq_true, if_false]
      cases hr : (indRunToolCalls env st ai_response.tool_calls 0).1 with
      | error e => intro h; simp [hr] at h
      | ok p =>
        cases p with
        | mk tmsgs toolCtr =>
          simp only [hr]
          cases hres : (indicatorLoop env st 5
              (messages0 ++ [Msg.ai ai_response] ++ tmsgs) 1 toolCtr).1 with
          | error e => intro h; simp [hres] at h
          | ok q =>
            cases q with
            | mk final_response messages3 =>
              intro h
              simp only [hres, Except.ok.injEq] at h
              rw [← h]
              exact extractReportInd_ne_empty final_response.content messages3

theorem indicatorCore_allTools (env : IndEnv) (st : IndState) (r : Nat → AIMsg)
    (henv : ∀ i, env.llm i = .ok (r i))
    (htc : ∀ i, (r i).tool_calls ≠ [])
    (hnm : ∀ i c, c ∈ (r i).tool_calls →
      (indicatorTools.find? (fun t => t == c.name)).isSome = true)
    (messages0 : List Msg) :
    (∃ out, (indicatorCore env st messages0).1 = .ok out ∧
      out.indicator_report = extractReportInd (r 5).content out.messages) ∧
    llmCount (indicatorCore env st messages0).2 = 6 := by
  have he : (r 0).tool_calls.isEmpty = false := by
    cases h' : (r 0).tool_calls with
    | nil => exact absurd h' (htc 0)
    | cons a l => rfl
  have hok := indRunToolCalls_ok env st (r 0).tool_calls 0
    (fun c hcm => hnm 0 c hcm)
  simp only [indicatorCore, henv 0, he, Bool.false_eq_true, if_false]
  cases hr : (indRunToolCalls env st (r 0).tool_calls 0).1 with
  | error e => rw [hr] at hok; simp [Except.isOk, Except.toBool] at hok
  | ok p =>
    cases p with
    | mk tmsgs toolCtr =>
      have htno := indRunToolCalls_llmCount env st (r 0).tool_calls 0
      have hloop := indicatorLoop_allTools env st r henv htc hnm 5
        (messages0 ++ [Msg.ai (r 0)] ++ tmsgs) 1 toolCtr (by omega)
      obtain ⟨⟨msgs2, hm⟩, hcnt⟩ := hloop
      have h15 : (1 : Nat) + 5 - 1 = 5 := by omega
      rw [h15] at hm
      constructor
      · refine ⟨⟨msgs2, extractReportInd (r 5).content msgs2⟩, ?_, rfl⟩
        simp only [hm]
      · simp only [hm, llmCount, llmCount_append, htno, hcnt]

/-- Claim C2: for every sequence of backend responses — including one in
which every response carries tool-invocation requests — the indicator
agent's tool-calling loop performs at most 5 awaiting-backend →
executing-tools cycles (at most 6 backend invocations in total, counting
the single pre-loop exchange of lines 53-69) and then terminates; when
the backend requests tools on every round, the run completes after
exactly 6 backend invocations, taking the 5th in-loop response — the last
backend response — as the final report even though it still requested
tools. -/
theorem indicator_loop_round_budget (env : IndEnv) (st : IndState) :
    llmCount (indicator_agent_node env st).2 ≤ 6 ∧
    (∀ r : Nat → AIMsg,
      (∀ i, env.llm i = .ok (r i)) →
      (∀ i, (r i).tool_calls ≠ []) →
      (∀ i c, c ∈ (r i).tool_calls →
        (indicatorTools.find? (fun t => t == c.name)).isSome = true) →
      pyBlank (r 5).content = false →
      llmCount (indicator_agent_node env st).2 = 6 ∧
      Except.map IndOut.indicator_report (indicator_agent_node env st).1 =
        .ok ((r 5).content)) := by
  constructor
  · exact indicatorCore_llmCount env st _
  · intro r henv htc hnm hblank
    have h := indicatorCore_allTools env st r henv htc hnm
      (if st.messages.isEmpty then [Msg.human (.str "开始技术指标分析。")]
       else st.messages)
    obtain ⟨⟨out, hout, hrep⟩, hcnt⟩ := h
    refine ⟨hcnt, ?_⟩
    rw [show (indicator_agent_node env st) =
      indicatorCore env st
        (if st.messages.isEmpty then [Msg.human (.str "开始技术指标分析。")]
         else st.messages) from rfl]
    rw [hout]
    simp only [Except.map]
    rw [hrep, extractReportInd_nonblank _ _ hblank]

/-- Concrete closed instance of `indicator_loop_round_budget`: a backend
that requests `compute_rsi` on every round drives the run to exactly 6
backend invocations with the 6th response's text as the report. -/
def c2Resp : AIMsg :=
  ⟨"仍需计算", [⟨"call_1", "compute_rsi", ⟨none, [("period", "14")]⟩⟩]⟩

def c2Env : IndEnv :=
  { llm := fun _ => .ok c2Resp, tool := fun _ _ _ => "\x7b\"rsi\": 55\x7d" }

def c2St : IndState :=
  { time_frame := "15min", kline_data := [1, 2, 3], messages := [] }

theorem indicator_loop_round_budget_witness :
    llmCount (indicator_agent_node c2Env c2St).2 = 6 ∧
    Except.map IndOut.indicator_report (indicator_agent_node c2Env c2St).1 =
      .ok "仍需计算" := by
  have h := (indicator_loop_round_budget c2Env c2St).2 (fun _ => c2Resp)
    (fun i => rfl)
    (fun i => by show c2Resp.tool_calls ≠ []; decide)
    (fun i c hc => by
      have : c = ⟨"call_1", "compute_rsi", ⟨none, [("period", "14")]⟩⟩ := by
        simpa [c2Resp] using hc
      subst this
      decide)
    (by decide)
  exact h

/-! ## Pattern agent (`pattern_agent.py`)

Artifact-or-Generate agent.  Phase A (lines 76-108): when the state holds
no truthy `pattern_image`, ask the tool-bound backend once (through the
local retry envelope) and execute the requested `generate_kline_image`
invocations, each through `invoke_tool_with_retry`.  Phase B (lines
112-157): with an artifact in hand, replace the transcript by a fresh
system turn plus one human turn embedding the image, and ask the
graph backend through the envelope; on failure whose text contains
"at least one message" (lowercased), retry with only the human turn.
With no artifact at all (lines 158-159), re-invoke the Phase-A chain and
take its free text.  Output (lines 161-164): `messages + [final_response]`
and `pattern_report = final_response.content`, verbatim. -/

/-- The input slice of the shared state the pattern node reads. -/
structure PatternState where
  time_frame : String
  kline_data : KlineData
  pattern_image : Option String
  messages : List Msg
deriving Repr

/-- External collaborators: the tool-bound backend (`tool_llm`), the
vision backend (`graph_llm`), and the artifact tool, each indexed by
physical invocation count. -/
structure PEnv where
  toolLLM : Nat → Except String AIMsg
  graphLLM : Nat → Except String AIMsg
  tool : String → Nat → ToolArgs → PToolResult

/-- The mapping returned by the node (lines 161-164). -/
structure POut where
  messages : List Msg
  pattern_report : String
deriving DecidableEq, Repr

/-- The tool registry bound to the backend (line 33). -/
def patternTools : List String := ["generate_kline_image"]

/-- `json.dumps(tool_result)` for the artifact tool's result. -/
def pDumpToolResult (r : PToolResult) : String :=
  match r.pattern_image with
  | some s => "\x7b\"pattern_image\": \"" ++ s ++ "\"\x7d"
  | none => "\x7b\x7d"

/-- The classic-pattern catalogue (lines 35-54), verbatim. -/
def patternText : String := "
        请参考以下经典K线形态:

        1. 倒头肩底: 三个低点, 中间最低且结构相对对称, 常预示上行。
        2. 双底: 两个相近低点, 中间反弹, 形成“W”形。
        3. 圆弧底: 价格缓慢下行后再缓慢回升, 呈“U”形。
        4. 隐藏底部平台: 横盘整理后向上突破。
        5. 下降楔形: 价格向下收敛, 常向上突破。
        6. 上升楔形: 价格缓慢上行并收敛, 常向下破位。
        7. 上升三角形: 下方支撑抬高、上方阻力水平, 常向上突破。
        8. 下降三角形: 上方阻力下移、下方支撑水平, 常向下突破。
        9. 看涨旗形: 急涨后短暂下倾整理, 随后继续上行。
        10. 看跌旗形: 急跌后短暂上倾整理, 随后继续下行。
        11. 矩形整理: 价格在水平支撑与阻力间震荡。
        12. 岛形反转: 两个反向缺口形成“孤岛”区域。
        13. V形反转: 急跌急拉或急拉急跌。
        14. 圆弧顶/圆弧底: 缓慢见顶或见底形成弧线。
        15. 扩散三角形: 高低点振幅逐步扩大, 波动增强。
        16. 对称三角形: 高低点逐步收敛至顶点, 常伴随突破。
        "

/-- The text part of the Phase-B image prompt (lines 116-121). -/
def patternImageText (time_frame : String) : String :=
  "这是一张基于近期OHLC市场数据生成的 " ++ time_frame ++ " 周期K线图。\n\n"
    ++ patternText ++ "\n\n"
    ++ "请判断图中是否匹配上述任一形态。"
    ++ "如匹配，请明确给出形态名称，并基于结构、趋势与对称性说明理由。"

/-- `data:image/png;base64,{...}` url of the embedded artifact. -/
def imageUrlOf (img : String) : String := "data:image/png;base64," ++ img

/-- The Phase-B human turn embedding the artifact (lines 113-129).  Its
content is the two-part list, so the emptiness guards of lines 131-134
never fire. -/
def patternHumanMsg (time_frame img : String) : Msg :=
  .human (.parts (patternImageText time_frame) (imageUrlOf img))

/-- The Phase-B system directive (lines 136-141). -/
def patternPhaseBSystem : String := "你是交易形态识别助手，负责基于K线图进行形态分析。"

/-- The error-text test of line 150:
`"at least one message" in error_str.lower()`. -/
def isMsgStructureError (e : String) : Bool :=
  strContains (lowerStr e) "at least one message"

/-- Phase-A tool execution (lines 96-108): for each requested call,
rewrite `kline_data`, look the tool up in the registry, run it through
`invoke_tool_with_retry`, remember its `pattern_image` (the last call
wins) and append the serialized result as a `ToolMessage`. -/
def patternToolLoop (env : PEnv) (st : PatternState) :
    List ToolCall → Nat → Option String →
    Except String (List Msg × Nat × Option String) × List Event
  | [], toolCtr, img => (.ok ([], toolCtr, img), [])
  | call :: restCalls, toolCtr, img =>
    let tool_args : ToolArgs := { call.args with kline_data := some st.kline_data }
    match patternTools.find? (fun t => t == call.name) with
    | none => (.error "StopIteration", [])
    | some nm =>
      let tr := invoke_tool_with_retry
        (fun i => env.tool nm (toolCtr + i) tool_args) 3
      let evs := List.replicate tr.2 (Event.toolInv nm tool_args)
      match tr.1 with
      | .error e => (.error e, evs)
      | .ok tool_result =>
        let rest := patternToolLoop env st restCalls (toolCtr + tr.2)
          tool_result.pattern_image
        (rest.1.map
          (fun p => (Msg.tool call.id (pDumpToolResult tool_result) :: p.1, p.2)),
         evs ++ rest.2)

/-- Phase B (lines 112-157): fresh `[system, human-with-image]`
transcript, graph backend through the envelope; the catch block retries
with only the human turn exactly when the raised text passes
`isMsgStructureError`, and re-raises otherwise. -/
def patternPhaseB (env : PEnv) (st : PatternState) (img : String)
    (gCtr : Nat) : Except String POut × List Event :=
  let human_msg := patternHumanMsg st.time_frame img
  let messages := [Msg.system patternPhaseBSystem, human_msg]
  let tryB := pattern_invoke_with_retry (fun i => env.graphLLM (gCtr + i)) 3
  let evs1 := List.replicate tryB.calls (Event.graphCall messages)
  match tryB.result with
  | .ok final_response =>
    (.ok ⟨messages ++ [Msg.ai final_response], final_response.content⟩, evs1)
  | .error e =>
    if isMsgStructureError e then
      let retryB := pattern_invoke_with_retry
        (fun i => env.graphLLM (gCtr + tryB.calls + i)) 3
      let evs2 := List.replicate retryB.calls (Event.graphCall [human_msg])
      match retryB.result with
      | .ok final_response =>
        (.ok ⟨messages ++ [Msg.ai final_response], final_response.content⟩,
         evs1 ++ evs2)
      | .error e2 => (.error e2, evs1 ++ evs2)
    else (.error e, evs1)

/-- No-artifact fallback (lines 158-159): re-invoke the Phase-A chain on
the accumulated transcript and take its free text as the report. -/
def patternFallbackB (env : PEnv) (messages2 : List Msg) (tCtr : Nat) :
    Except String POut × List Event :=
  let tryF := pattern_invoke_with_retry (fun i => env.toolLLM (tCtr + i)) 3
  let evs := List.replicate tryF.calls (Event.llmCall messages2)
  match tryF.result with
  | .ok final_response =>
    (.ok ⟨messages2 ++ [Msg.ai final_response], final_response.content⟩, evs)
  | .error e => (.error e, evs)

/-- Phase A followed by Phase B or the fallback (the
`if not pattern_image_b64:` branch of lines 76-108 plus the dispatch of
lines 112 and 158). -/
def patternPhaseA (env : PEnv) (st : PatternState) :
    Except String POut × List Event :=
  let tryA := pattern_invoke_with_retry (fun i => env.toolLLM i) 3
  let evsA := List.replicate tryA.calls (Event.llmCall st.messages)
  match tryA.result with
  | .error e => (.error e, evsA)
  | .ok ai_response =>
    let tl := patternToolLoop env st ai_response.tool_calls 0 st.pattern_image
    match tl.1 with
    | .error e => (.error e, evsA ++ tl.2)
    | .ok (tmsgs, _toolCtr, img2) =>
      let messages2 := st.messages ++ [Msg.ai ai_response] ++ tmsgs
      match img2 with
      | some i2 =>
        if pyFalsy i2 then
          let fb := patternFallbackB env messages2 tryA.calls
          (fb.1, evsA ++ tl.2 ++ fb.2)
        else
          let pb := patternPhaseB env st i2 0
          (pb.1, evsA ++ tl.2 ++ pb.2)
      | none =>
        let fb := patternFallbackB env messages2 tryA.calls
        (fb.1, evsA ++ tl.2 ++ fb.2)

/-- `pattern_agent_node` (lines 32-164): reuse a truthy pre-generated
artifact from state (skipping Phase A entirely), otherwise generate. -/
def pattern_agent_node (env : PEnv) (st : PatternState) :
    Except String POut × List Event :=
  match st.pattern_image with
  | some img =>
    if pyFalsy img then patternPhaseA env st
    else patternPhaseB env st img 0
  | none => patternPhaseA env st

/-! ## Trend agent (`trend_agent.py`)

Artifact-or-Generate agent like the pattern agent, but: the transcript is
rebuilt from scratch (line 46 starts from the empty list, the incoming
`state["messages"]` is never read); tool results are accepted as-is with
no missing-image retry (lines 71-85); the envelopes are the module-level
`invoke_with_retry` (sleep between attempts); and the output additionally
republishes the artifact, a fixed filename and an optional description
(lines 138-148). -/

/-- Structured result of the `generate_trend_image` tool. -/
structure TToolResult where
  trend_image : Option String
deriving DecidableEq, Repr

/-- The input slice of the shared state the trend node reads. -/
structure TrendState where
  time_frame : String
  kline_data : KlineData
  trend_image : Option String
  messages : List Msg
deriving Repr

/-- External collaborators of the trend node. -/
structure TEnv where
  toolLLM : Nat → Except String AIMsg
  graphLLM : Nat → Except String AIMsg
  tool : String → Nat → ToolArgs → TToolResult

/-- The mapping returned by the node (lines 138-148). -/
structure TOut where
  messages : List Msg
  trend_report : String
  trend_image : Option String
  trend_image_filename : String
  trend_image_description : Option String
deriving DecidableEq, Repr

/-- The tool registry bound to the backend (line 41). -/
def trendTools : List String := ["generate_trend_image"]

/-- `json.dumps(tool_result)` for the trend tool's result. -/
def tDumpToolResult (r : TToolResult) : String :=
  match r.trend_image with
  | some s => "\x7b\"trend_image\": \"" ++ s ++ "\"\x7d"
  | none => "\x7b\x7d"

/-- The Phase-A system directive (lines 51-57). -/
def trendPhaseASystem : String :=
  "你是高频交易场景下的K线趋势识别助手。"
    ++ "你必须先调用 `generate_trend_image` 工具，并传入 `kline_data`。"
    ++ "图像生成后，再分析支撑/阻力趋势线以及可识别K线结构。"
    ++ "最后给出短期趋势判断: 上涨、下跌或震荡。"
    ++ "在图像生成并分析完成前，不得提前给出预测。"

/-- The Phase-A human turn embedding the serialized kline data
(lines 61-63). -/
def trendPhaseAHuman (st : TrendState) : Msg :=
  .human (.str ("以下是近期K线数据:\n" ++ jsonDumpsKline st.kline_data))

/-- The text part of the Phase-B image prompt (lines 90-104). -/
def trendImageText (time_frame : String) : String :=
  "这是一张 " ++ time_frame
    ++ " 周期K线图，图中已自动叠加趋势线: 蓝线为支撑线，红线为阻力线，均来自近期收盘价拟合。\n\n"
    ++ "请分析价格与趋势线的互动关系: 是否反弹、跌破/突破，或在区间内持续压缩。\n\n"
    ++ "结合趋势线斜率、线间距和近期K线行为，判断短期趋势更可能是: 上涨、下跌或震荡。"
    ++ "请给出结论并说明依据(关键信号与推理过程)。"

/-- The Phase-B human turn embedding the artifact (lines 90-111); again
the emptiness guards never fire on the two-part content. -/
def trendHumanMsg (time_frame img : String) : Msg :=
  .human (.parts (trendImageText time_frame) (imageUrlOf img))

/-- The Phase-B system directive (lines 113-118). -/
def trendPhaseBSystem : String :=
  "你是高频交易场景下的K线趋势识别助手，任务是分析含支撑/阻力线的K线图并判断短期走势。"

/-- The trend description literal of lines 143-147. -/
def trendImageDescription : String := "带支撑/阻力趋势线的K线图"

/-- Phase-A tool execution (lines 71-85): for each requested call,
rewrite `kline_data`, look the tool up, invoke it exactly once (no
retry), remember its `trend_image` (the last call wins) and append the
serialized result. -/
def trendToolLoop (env : TEnv) (st : TrendState) :
    List ToolCall → Nat → Option String →
    Except String (List Msg × Nat × Option String) × List Event
  | [], toolCtr, img => (.ok ([], toolCtr, img), [])
  | call :: restCalls, toolCtr, img =>
    let tool_args : ToolArgs := { call.args with kline_data := some st.kline_data }
    match trendTools.find? (fun t => t == call.name) with
    | none => (.error "StopIteration", [])
    | some nm =>
      let tool_result := env.tool nm toolCtr tool_args
      let rest := trendToolLoop env st restCalls (toolCtr + 1)
        tool_result.trend_image
      (rest.1.map
        (fun p => (Msg.tool call.id (tDumpToolResult tool_result) :: p.1, p.2)),
       Event.toolInv nm tool_args :: rest.2)

/-- Builds the output mapping of lines 138-148. -/
def trendOut (messages : List Msg) (final_response : AIMsg)
    (img : Option String) : TOut :=
  { messages := messages ++ [Msg.ai final_response]
    trend_report := final_response.content
    trend_image := img
    trend_image_filename := "trend_graph.png"
    trend_image_description :=
      if optTruthy img then some trendImageDescription else none }

/-- Phase B (lines 89-134), the trend-side twin of `patternPhaseB`, using
the module-level envelope. -/
def trendPhaseB (env : TEnv) (st : TrendState) (img : String)
    (gCtr : Nat) : Except String TOut × List Event :=
  let human_msg := trendHumanMsg st.time_frame img
  let messages := [Msg.system trendPhaseBSystem, human_msg]
  let tryB := invoke_with_retry (fun i => env.graphLLM (gCtr + i)) 3
  let evs1 := List.replicate tryB.calls (Event.graphCall messages)
  match tryB.result with
  | .ok final_response =>
    (.ok (trendOut messages final_response (some img)), evs1)
  | .error e =>
    if isMsgStructureError e then
      let retryB := invoke_with_retry
        (fun i => env.graphLLM (gCtr + tryB.calls + i)) 3
      let evs2 := List.replicate retryB.calls (Event.graphCall [human_msg])
      match retryB.result with
      | .ok final_response =>
        (.ok (trendOut messages final_response (some img)), evs1 ++ evs2)
      | .error e2 => (.error e2, evs1 ++ evs2)
    else (.error e, evs1)

/-- No-artifact fallback (lines 135-136) followed by the output build:
re-invoke the Phase-A chain on the accumulated transcript. -/
def trendFallbackB (env : TEnv) (messages2 : List Msg) (tCtr : Nat)
    (img : Option String) : Except String TOut × List Event :=
  let tryF := invoke_with_retry (fun i => env.toolLLM (tCtr + i)) 3
  let evs := List.replicate tryF.calls (Event.llmCall messages2)
  match tryF.result with
  | .ok final_response => (.ok (trendOut messages2 final_response img), evs)
  | .error e => (.error e, evs)

/-- Phase A (lines 48-85) followed by the Phase-B/fallback dispatch.
`messages` is rebuilt as `[system, human-with-kline]`; the incoming
transcript plays no part. -/
def trendPhaseA (env : TEnv) (st : TrendState) :
    Except String TOut × List Event :=
  let messages0 := [Msg.system trendPhaseASystem, trendPhaseAHuman st]
  let tryA := invoke_with_retry (fun i => env.toolLLM i) 3
  let evsA := List.replicate tryA.calls (Event.llmCall messages0)
  match tryA.result with
  | .error e => (.error e, evsA)
  | .ok ai_response =>
    let tl := trendToolLoop env st ai_response.tool_calls 0 st.trend_image
    match tl.1 with
    | .error e => (.error e, evsA ++ tl.2)
    | .ok (tmsgs, _toolCtr, img2) =>
      let messages2 := messages0 ++ [Msg.ai ai_response] ++ tmsgs
      match img2 with
      | some i2 =>
        if pyFalsy i2 then
          let fb := trendFallbackB env messages2 tryA.calls img2
          (fb.1, evsA ++ tl.2 ++ fb.2)
        else
          let pb := trendPhaseB env st i2 0
          (pb.1, evsA ++ tl.2 ++ pb.2)
      | none =>
        let fb := trendFallbackB env messages2 tryA.calls none
        (fb.1, evsA ++ tl.2 ++ fb.2)

/-- `trend_agent_node` (lines 40-150). -/
def trend_agent_node (env : TEnv) (st : TrendState) :
    Except String TOut × List Event :=
  match st.trend_image with
  | some img =>
    if pyFalsy img then trendPhaseA env st
    else trendPhaseB env st img 0
  | none => trendPhaseA env st

/-! ## Decision agent (`decision_agent.py`)

Single-shot synthesizer: builds one prompt string embedding the three
reports and the identifying context, invokes the backend once, and emits
the raw response content as `final_trade_decision` together with the
prompt used — no parsing or validation of the output happens here
(lines 99-106). -/

/-- The input slice of the shared state the decision node reads
(lines 14-18). -/
structure DecState where
  indicator_report : String
  pattern_report : String
  trend_report : String
  time_frame : String
  stock_name : String
deriving Repr

/-- The decision node's backend. -/
structure DecEnv where
  llm : Nat → Except String AIMsg

/-- The mapping returned by the node (lines 102-106). -/
structure DecOut where
  final_trade_decision : String
  messages : List Msg
  decision_prompt : String
deriving DecidableEq, Repr

/-- The decision prompt (lines 21-97), an f-string over the state
fields; the doubled braces of the JSON template render as literal
braces. -/
def decisionPrompt (st : DecState) : String :=
  "你是一名高频量化交易(HFT)分析师，当前正在分析 " ++ st.stock_name ++ " 的 "
    ++ st.time_frame
    ++ " 周期K线。你的任务是给出**立即执行**的交易指令: **LONG** 或 **SHORT**。HFT场景下禁止输出 HOLD。\n\n"
    ++ "你的判断需要预测未来 **N 根K线** 的方向，其中:\n"
    ++ "- 例如: TIME_FRAME=15min, N=1，表示预测未来15分钟。\n"
    ++ "- TIME_FRAME=4hour, N=1，表示预测未来4小时。\n\n"
    ++ "请综合以下三份报告的强度、一致性与时效性后再下结论:\n\n---\n\n"
    ++ "### 1. 技术指标报告\n"
    ++ "- 评估动量类指标(如 MACD、ROC)与震荡类指标(如 RSI、Stochastic、Williams %R)。\n"
    ++ "- 对方向性强信号给予更高权重，例如: MACD金叉/死叉、RSI背离、超买超卖极值。\n"
    ++ "- 中性或相互矛盾信号应降权，除非多个指标同向共振。\n\n---\n\n"
    ++ "### 2. 形态报告\n"
    ++ "- 只有在以下条件成立时，才可据此执行多空:\n"
    ++ "- 形态清晰可辨且接近完成；\n"
    ++ "- 已出现突破/破位，或根据价格与动量显示极高概率即将突破/破位(如长影线、放量、吞没)。\n"
    ++ "- 对早期、猜测性形态不要直接交易。若无其他报告确认，不应将纯整理结构视作可执行信号。\n\n---\n\n"
    ++ "### 3. 趋势报告\n"
    ++ "- 分析价格与支撑/阻力线的关系:\n"
    ++ "- 上升支撑线通常代表买盘承接。\n"
    ++ "- 下降阻力线通常代表卖压主导。\n"
    ++ "- 若价格在趋势线之间压缩:\n"
    ++ "- 仅当存在强K线或指标共振时，才预测突破方向。\n"
    ++ "- 不要仅凭几何形态主观猜测突破方向。\n\n---\n\n"
    ++ "### 决策策略\n\n"
    ++ "1. 仅基于**已确认**信号决策，避免早期、投机或冲突信号。\n"
    ++ "2. 优先选择三份报告(指标/形态/趋势)同向一致的机会。\n"
    ++ "3. 更重视以下证据:\n"
    ++ "- 最近动量显著增强(如 MACD交叉、RSI突破)\n"
    ++ "- 明确价格行为(如突破实体K线、拒绝影线、支撑反弹)\n"
    ++ "4. 若报告不一致:\n"
    ++ "- 选择**确认更强、时间更近**的一侧\n"
    ++ "- 优先动量确认，弱震荡提示降权\n"
    ++ "5. 若市场明显盘整或信号混杂:\n"
    ++ "- 默认遵循主导趋势线斜率方向(如下降通道优先 SHORT)\n"
    ++ "- 不要拍方向，选择证据更充分的一侧\n"
    ++ "6. 结合当前波动与趋势强度，给出 **1.2~1.8** 区间内的合理风险收益比。\n\n"
    ++ "---\n### 输出格式(必须是可解析JSON):\n\n```\n"
    ++ "\x7b\n"
    ++ "\"forecast_horizon\": \"Predicting next 3 candlestick (15 minutes, 1 hour, etc.)\",\n"
    ++ "\"decision\": \"<LONG or SHORT>\",\n"
    ++ "\"justification\": \"<Concise, confirmed reasoning based on reports>\",\n"
    ++ "\"risk_reward_ratio\": \"<float between 1.2 and 1.8>\"\n"
    ++ "\x7d\n```\n\n"
    ++ "### 语言要求(必须遵守):\n"
    ++ "- 最终输出 JSON 的所有 value 必须使用英文(English)。\n"
    ++ "- `decision` 仅允许 `LONG` 或 `SHORT`。\n"
    ++ "- 不要输出中文，不要输出 JSON 以外的额外文本。\n\n"
    ++ "--------\n"
    ++ "**Technical Indicator Report**  \n" ++ st.indicator_report ++ "\n\n"
    ++ "**Pattern Report**  \n" ++ st.pattern_report ++ "\n\n"
    ++ "**Trend Report**  \n" ++ st.trend_report ++ "\n"

/-- `trade_decision_node` (lines 13-106): one backend call, raw
pass-through of the response content. -/
def trade_decision_node (env : DecEnv) (st : DecState) :
    Except String DecOut :=
  match env.llm 0 with
  | .error e => .error e
  | .ok response =>
    .ok ⟨response.content, [Msg.ai response], decisionPrompt st⟩

/-- First occurrence of `needle`: the characters following it. -/
def findAfter (needle : List Char) : List Char → Option (List Char)
  | [] => none
  | b :: bs =>
    if prefChar needle (b :: bs) then some ((b :: bs).drop needle.length)
    else findAfter needle bs

/-- The `decision` field of a serialized decision object.  The
synthesizer itself performs no parsing or validation (the spec defers
malformed output downstream), so this reading of "parsed as an object"
follows the spec's output contract, not any code in the node. -/
def decisionFieldOf (s : String) : Option String :=
  match findAfter ("\"decision\": \"").data s.data with
  | some rest => some ⟨rest.takeWhile (fun c => c != '\"')⟩
  | none => none

/-! ### Pattern and trend lemmas -/

theorem all_klineRespected_replicate (k : KlineData) (n : Nat) (e : Event)
    (h : klineRespected k e = true) :
    (List.replicate n e).all (klineRespected k) = true := by
  rw [List.all_eq_true]
  intro x hx
  rw [List.eq_of_mem_replicate hx]
  exact h

theorem all_replicate_graphCall (k : KlineData) (n : Nat) (ms : List Msg) :
    (List.replicate n (Event.graphCall ms)).all (klineRespected k) = true :=
  all_klineRespected_replicate k n _ rfl

theorem all_replicate_llmCall (k : KlineData) (n : Nat) (ms : List Msg) :
    (List.replicate n (Event.llmCall ms)).all (klineRespected k) = true :=
  all_klineRespected_replicate k n _ rfl

theorem patternToolLoop_kline (env : PEnv) (st : PatternState) :
    ∀ calls toolCtr img,
    ((patternToolLoop env st calls toolCtr img).2).all
      (klineRespected st.kline_data) = true := by
  intro calls
  induction calls with
  | nil => intro toolCtr img; simp [patternToolLoop]
  | cons call restCalls ih =>
    intro toolCtr img
    simp only [patternToolLoop]
    cases hf : patternTools.find? (fun t => t == call.name) with
    | none => simp
    | some nm =>
      have hrep := all_klineRespected_replicate st.kline_data
        (invoke_tool_with_retry
          (fun i => env.tool nm (toolCtr + i)
            { call.args with kline_data := some st.kline_data }) 3).2
        (Event.toolInv nm { call.args with kline_data := some st.kline_data })
        (by simp [klineRespected])
      cases hr : (invoke_tool_with_retry
          (fun i => env.tool nm (toolCtr + i)
            { call.args with kline_data := some st.kline_data }) 3).1 with
      | error e => simp only [hr]; exact hrep
      | ok tool_result =>
        simp only [hr]
        rw [List.all_append, hrep, ih]
        rfl

theorem patternPhaseB_kline (env : PEnv) (st : PatternState)
    (img : String) (gCtr : Nat) :
    ((patternPhaseB env st img gCtr).2).all
      (klineRespected st.kline_data) = true := by
  simp only [patternPhaseB]
  cases hb : (pattern_invoke_with_retry
      (fun i => env.graphLLM (gCtr + i)) 3).result with
  | ok final_response =>
    simp only [hb]
    exact all_klineRespected_replicate _ _ _ rfl
  | error e =>
    simp only [hb]
    by_cases hm : isMsgStructureError e
    · simp only [hm, if_true]
      cases hb2 : (pattern_invoke_with_retry
          (fun i => env.graphLLM (gCtr + (pattern_invoke_with_retry
            (fun i => env.graphLLM (gCtr + i)) 3).calls + i)) 3).result with
      | ok fr =>
        simp only [hb2]
        rw [List.all_append, all_replicate_graphCall,
          all_replicate_graphCall]
        rfl
      | error e2 =>
        simp only [hb2]
        rw [List.all_append, all_replicate_graphCall,
          all_replicate_graphCall]
        rfl
    · simp only [hm, Bool.false_eq_true, if_false]
      exact all_klineRespected_replicate _ _ _ rfl

theorem patternFallbackB_kline (env : PEnv) (messages2 : List Msg)
    (tCtr : Nat) (k : KlineData) :
    ((patternFallbackB env messages2 tCtr).2).all (klineRespected k) = true := by
  simp only [patternFallbackB]
  cases hb : (pattern_invoke_with_retry
      (fun i => env.toolLLM (tCtr + i)) 3).result with
  | ok fr => simp only [hb]; exact all_klineRespected_replicate _ _ _ rfl
  | error e => simp only [hb]; exact all_klineRespected_replicate _ _ _ rfl

theorem patternPhaseA_kline (env : PEnv) (st : PatternState) :
    ((patternPhaseA env st).2).all (klineRespected st.kline_data) = true := by
  simp only [patternPhaseA]
  cases ha : (pattern_invoke_with_retry (fun i => env.toolLLM i) 3).result with
  | error e => simp only [ha]; exact all_klineRespected_replicate _ _ _ rfl
  | ok ai_response =>
    simp only [ha]
    have htl := patternToolLoop_kline env st ai_response.tool_calls 0
      st.pattern_image
    cases hr : (patternToolLoop env st ai_response.tool_calls 0
        st.pattern_image).1 with
    | error e =>
      simp only [hr]
      rw [List.all_append, all_replicate_llmCall, htl]
      rfl
    | ok p =>
      obtain ⟨tmsgs, tc, img2⟩ := p
      simp only [hr]
      cases img2 with
      | some i2 =>
        by_cases hi : pyFalsy i2
        · simp only [hi, if_true]
          rw [List.all_append, List.all_append,
            all_replicate_llmCall, htl, patternFallbackB_kline]
          rfl
        · simp only [hi, Bool.false_eq_true, if_false]
          rw [List.all_append, List.all_append,
            all_replicate_llmCall, htl, patternPhaseB_kline]
          rfl
      | none =>
        rw [List.all_append, List.all_append,
          all_replicate_llmCall, htl, patternFallbackB_kline]
        rfl

theorem pattern_node_kline (env : PEnv) (st : PatternState) :
    ((pattern_agent_node env st).2).all (klineRespected st.kline_data) = true := by
  simp only [pattern_agent_node]
  cases hi : st.pattern_image with
  | none => exact patternPhaseA_kline env st
  | some img =>
    by_cases hf : pyFalsy img
    · simp only [hf, if_true]
      exact patternPhaseA_kline env st
    · simp only [hf, Bool.false_eq_true, if_false]
      exact patternPhaseB_kline env st img 0

theorem trendToolLoop_kline (env : TEnv) (st : TrendState) :
    ∀ calls toolCtr img,
    ((trendToolLoop env st calls toolCtr img).2).all
      (klineRespected st.kline_data) = true := by
  intro calls
  induction calls with
  | nil => intro toolCtr img; simp [trendToolLoop]
  | cons call restCalls ih =>
    intro toolCtr img
    simp only [trendToolLoop]
    cases hf : trendTools.find? (fun t => t == call.name) with
    | none => simp
    | some nm =>
      rw [List.all_cons, ih]
      simp [klineRespected]

theorem trendPhaseB_kline (env : TEnv) (st : TrendState)
    (img : String) (gCtr : Nat) :
    ((trendPhaseB env st img gCtr).2).all
      (klineRespected st.kline_data) = true := by
  simp only [trendPhaseB]
  cases hb : (invoke_with_retry (fun i => env.graphLLM (gCtr + i)) 3).result with
  | ok final_response =>
    simp only [hb]
    exact all_replicate_graphCall _ _ _
  | error e =>
    simp only [hb]
    by_cases hm : isMsgStructureError e
    · simp only [hm, if_true]
      cases hb2 : (invoke_with_retry
          (fun i => env.graphLLM (gCtr + (invoke_with_retry
            (fun i => env.graphLLM (gCtr + i)) 3).calls + i)) 3).result with
      | ok fr =>
        simp only [hb2]
        rw [List.all_append, all_replicate_graphCall, all_replicate_graphCall]
        rfl
      | error e2 =>
        simp only [hb2]
        rw [List.all_append, all_replicate_graphCall, all_replicate_graphCall]
        rfl
    · simp only [hm, Bool.false_eq_true, if_false]
      exact all_replicate_graphCall _ _ _

theorem trendFallbackB_kline (env : TEnv) (messages2 : List Msg)
    (tCtr : Nat) (img : Option String) (k : KlineData) :
    ((trendFallbackB env messages2 tCtr img).2).all (klineRespected k) = true := by
  simp only [trendFallbackB]
  cases hb : (invoke_with_retry (fun i => env.toolLLM (tCtr + i)) 3).result with
  | ok fr => simp only [hb]; exact all_replicate_llmCall _ _ _
  | error e => simp only [hb]; exact all_replicate_llmCall _ _ _

theorem trendPhaseA_kline (env : TEnv) (st : TrendState) :
    ((trendPhaseA env st).2).all (klineRespected st.kline_data) = true := by
  simp only [trendPhaseA]
  cases ha : (invoke_with_retry (fun i => env.toolLLM i) 3).result with
  | error e => simp only [ha]; exact all_replicate_llmCall _ _ _
  | ok ai_response =>
    simp only [ha]
    have htl := trendToolLoop_kline env st ai_response.tool_calls 0 st.trend_image
    cases hr : (trendToolLoop env st ai_response.tool_calls 0
        st.trend_image).1 with
    | error e =>
      simp only [hr]
      rw [List.all_append, all_replicate_llmCall, htl]
      rfl
    | ok p =>
      obtain ⟨tmsgs, tc, img2⟩ := p
      simp only [hr]
      cases img2 with
      | some i2 =>
        by_cases hi : pyFalsy i2
        · simp only [hi, if_true]
          rw [List.all_append, List.all_append, all_replicate_llmCall, htl,
            trendFallbackB_kline]
          rfl
        · simp only [hi, Bool.false_eq_true, if_false]
          rw [List.all_append, List.all_append, all_replicate_llmCall, htl,
            trendPhaseB_kline]
          rfl
      | none =>
        rw [List.all_append, List.all_append, all_replicate_llmCall, htl,
          trendFallbackB_kline]
        rfl

theorem trend_node_kline (env : TEnv) (st : TrendState) :
    ((trend_agent_node env st).2).all (klineRespected st.kline_data) = true := by
  simp only [trend_agent_node]
  cases hi : st.trend_image with
  | none => exact trendPhaseA_kline env st
  | some img =>
    by_cases hf : pyFalsy img
    · simp only [hf, if_true]
      exact trendPhaseA_kline env st
    · simp only [hf, Bool.false_eq_true, if_false]
      exact trendPhaseB_kline env st img 0

theorem indicator_node_kline (env : IndEnv) (st : IndState) :
    ((indicator_agent_node env st).2).all (klineRespected st.kline_data) = true :=
  indicatorCore_kline env st _

/-! ## Claim theorems -/

/-- Claim C1: for every tool-invocation request an agent routes to a tool
(in the indicator, pattern and trend agents alike), the `kline_data`
argument the tool receives equals the authoritative
`state["kline_data"]` at call time — never the backend-supplied value,
even when the backend supplies a different or absent `kline_data` in the
request's args.  Every tool-invocation event of every run of the three
nodes, whatever the backend supplies, carries
`kline_data = some state.kline_data` (deep copy is the identity on the
immutable values of this embedding). -/
theorem tool_gateway_kline_injection (ienv : IndEnv) (ist : IndState)
    (penv : PEnv) (pst : PatternState) (tenv : TEnv) (tst : TrendState) :
    ((indicator_agent_node ienv ist).2).all (klineRespected ist.kline_data) = true ∧
    ((pattern_agent_node penv pst).2).all (klineRespected pst.kline_data) = true ∧
    ((trend_agent_node tenv tst).2).all (klineRespected tst.kline_data) = true :=
  ⟨indicator_node_kline ienv ist, pattern_node_kline penv pst,
    trend_node_kline tenv tst⟩

/-- Claim C3, amended — the part that holds: the indicator agent's report
is never the empty string — blank final content falls back to the most
recent turn whose content is a non-empty, non-blank string and that
lacks the `tool_calls` attribute (hence every assistant turn is skipped),
and a still-falsy result is replaced by the literal default.  The pattern
and trend agents enjoy no such guarantee (see the counterexample). -/
theorem indicator_report_nonempty (env : IndEnv) (st : IndState) :
    Except.map IndOut.indicator_report (indicator_agent_node env st).1 ≠
      Except.ok "" := by
  cases hnode : (indicator_agent_node env st).1 with
  | error e => simp [Except.map]
  | ok out =>
    simp only [Except.map]
    intro hcontra
    exact indicatorCore_report_ne env st _ out hnode
      (Except.ok.injEq .. ▸ hcontra)

/-- Claim C3, counterexample: a pattern-agent run that completes without
raising and writes an empty `pattern_report` — the state supplies the
artifact and the grounded backend call returns empty content, which the
node passes through verbatim (lines 161-164 of `pattern_agent.py` have
no fallback). -/
def c3Env : PEnv :=
  { toolLLM := fun _ => .ok ⟨"unused", []⟩
    graphLLM := fun _ => .ok ⟨"", []⟩
    tool := fun _ _ _ => ⟨none⟩ }

def c3St : PatternState :=
  { time_frame := "15min", kline_data := [1, 2], pattern_image := some "IMG"
    messages := [] }

/-- Claim C3, counterexample: this concrete pattern-agent run completes
without raising and writes `pattern_report = ""`, refuting the claim that
every completing agent writes non-empty, non-whitespace report text. -/
theorem pattern_report_can_be_empty :
    Except.map POut.pattern_report (pattern_agent_node c3Env c3St).1 =
      Except.ok "" := by decide

/-- Claim C4: the retry envelopes (`invoke_with_retry` of the trend agent,
and the pattern agent's local variant): an operation failing exactly `k`
times with `k < retries` and then succeeding yields the success result
after exactly `k` waits and `k + 1` invocations; an operation failing on
every attempt raises `RuntimeError("超过最大重试次数")` after exactly
`retries` invocations. -/
theorem retry_envelope_contract {α : Type} (op : Nat → Except String α)
    (retries k : Nat) (v : α) :
    (k < retries →
      (∀ i, i < k → (op i).isOk = false) →
      op k = .ok v →
      invoke_with_retry op retries = ⟨.ok v, k + 1, k⟩ ∧
      pattern_invoke_with_retry op retries = ⟨.ok v, k + 1, k⟩) ∧
    ((∀ i, i < retries → (op i).isOk = false) →
      (invoke_with_retry op retries).result = .error "超过最大重试次数" ∧
      (invoke_with_retry op retries).calls = retries ∧
      (pattern_invoke_with_retry op retries).result = .error "超过最大重试次数" ∧
      (pattern_invoke_with_retry op retries).calls = retries) := by
  constructor
  · intro hk hfail hok
    constructor
    · have h := trendRetryGo_succeeds op retries k v retries 0 (by omega)
        (by omega) hk (fun i _ hik => hfail i hik) hok
      simpa [invoke_with_retry] using h
    · have h := patternRetryGo_succeeds op k v retries 0 (by omega)
        (by omega) (fun i _ hik => hfail i hik) hok
      simpa [pattern_invoke_with_retry] using h
  · intro hfail
    have h1 := trendRetryGo_exhausts op retries retries 0 (by omega)
      (fun i _ hik => hfail i hik)
    have h2 := patternRetryGo_exhausts op retries 0
      (fun i _ hik => hfail i (by omega))
    exact ⟨h1.1, h1.2, h2.1, h2.2⟩

/-- Concrete closed instance of `retry_envelope_contract`: an operation
failing twice then succeeding, and one failing always, at
`retries = 3`. -/
def c4OpFlaky : Nat → Except String Nat :=
  fun i => if i < 2 then .error "transient" else .ok 42

def c4OpDead : Nat → Except String Nat := fun _ => .error "down"

theorem retry_envelope_contract_witness :
    invoke_with_retry c4OpFlaky 3 = ⟨.ok 42, 3, 2⟩ ∧
    pattern_invoke_with_retry c4OpFlaky 3 = ⟨.ok 42, 3, 2⟩ ∧
    (invoke_with_retry c4OpDead 3).result = .error "超过最大重试次数" ∧
    (invoke_with_retry c4OpDead 3).calls = 3 ∧
    (pattern_invoke_with_retry c4OpDead 3).result = .error "超过最大重试次数" ∧
    (pattern_invoke_with_retry c4OpDead 3).calls = 3 := by
  have hs := (retry_envelope_contract c4OpFlaky 3 2 42).1 (by omega)
    (fun i hi => by
      interval_cases i <;> rfl)
    (by rfl)
  have hf := (retry_envelope_contract c4OpDead 3 0 0).2
    (fun i _ => rfl)
  exact ⟨hs.1, hs.2, hf.1, hf.2.1, hf.2.2.1, hf.2.2.2⟩

/-- Claim C5, amended — the part that holds: the decision synthesizer
performs no parsing or validation — `final_trade_decision` is the
backend's response content verbatim (and the prompt and single response
turn are emitted alongside), so the LONG/SHORT and risk-reward-ratio
bounds are only as good as the backend's compliance. -/
theorem decision_passthrough (st : DecState) (r : AIMsg) :
    trade_decision_node ⟨fun _ => .ok r⟩ st =
      .ok ⟨r.content, [Msg.ai r], decisionPrompt st⟩ := rfl

/-- Claim C5, counterexample: a backend response whose object carries
`decision = "HOLD"` flows through the synthesizer unchanged, so the
emitted `final_trade_decision`, parsed as an object, violates
`decision ∈ \x7bLONG, SHORT\x7d`. -/
def c5Content : String :=
  "\x7b\"decision\": \"HOLD\", \"risk_reward_ratio\": \"2.5\"\x7d"

def c5Env : DecEnv := ⟨fun _ => .ok ⟨c5Content, []⟩⟩

def c5St : DecState :=
  ⟨"指标中性", "形态不明确", "区间震荡", "15min", "BTCUSDT"⟩

/-- Claim C5, counterexample: the emitted `final_trade_decision` equals
the backend content verbatim, and its `decision` field reads `HOLD`,
violating `decision ∈ \x7bLONG, SHORT\x7d` — the synthesizer never
validates. -/
theorem decision_contract_violated :
    Except.map DecOut.final_trade_decision (trade_decision_node c5Env c5St) =
      Except.ok c5Content ∧
    decisionFieldOf c5Content = some "HOLD" ∧
    (some "HOLD" : Option String) ≠ some "LONG" ∧
    (some "HOLD" : Option String) ≠ some "SHORT" := by
  refine ⟨rfl, by decide, by decide, by decide⟩

/-- Claim C6: in the pattern agent's Phase A, a tool result lacking the
`pattern_image` field causes the tool itself to be re-invoked, up to 3
attempts (with a 4-second sleep after each miss); when all 3 results lack
the field, `invoke_tool_with_retry` raises
`RuntimeError("多次重试后仍未生成图像")`, the node propagates it, and the
agent never reaches Phase B: no grounded (graph) backend call appears in
the trace and no `pattern_report` is produced. -/
theorem pattern_missing_image_aborts (env : PEnv) (st : PatternState)
    (r0 : AIMsg) (c : ToolCall)
    (himg0 : st.pattern_image = none)
    (h0 : env.toolLLM 0 = .ok r0)
    (hc : r0.tool_calls = [c])
    (hcn : c.name = "generate_kline_image")
    (htool : ∀ i args,
      (env.tool "generate_kline_image" i args).pattern_image = none) :
    (∀ op : Nat → PToolResult,
      (∀ i, i < 3 → (op i).pattern_image = none) →
      invoke_tool_with_retry op 3 = (.error "多次重试后仍未生成图像", 3)) ∧
    (pattern_agent_node env st).1 = .error "多次重试后仍未生成图像" ∧
    (∀ e ∈ (pattern_agent_node env st).2, ∀ ms, e ≠ Event.graphCall ms) := by
  have hgen : ∀ op : Nat → PToolResult,
      (∀ i, i < 3 → (op i).pattern_image = none) →
      invoke_tool_with_retry op 3 = (.error "多次重试后仍未生成图像", 3) := by
    intro op hop
    unfold invoke_tool_with_retry
    exact invokeToolGo_exhausts op 3 0
      (fun i h1 h2 => by simp [hop i (by omega), optTruthy])
  have hA : pattern_invoke_with_retry (fun i => env.toolLLM i) 3 =
      ⟨.ok r0, 1, 0⟩ := by
    simp [pattern_invoke_with_retry, patternRetryGo, h0]
  have hfind : patternTools.find? (fun t => t == "generate_kline_image") =
      some "generate_kline_image" := rfl
  have htr := hgen
    (fun i => env.tool "generate_kline_image" (0 + i)
      { c.args with kline_data := some st.kline_data })
    (fun i _ => htool (0 + i) _)
  have hnode : pattern_agent_node env st =
      (.error "多次重试后仍未生成图像",
        List.replicate 1 (Event.llmCall st.messages) ++
          List.replicate 3 (Event.toolInv "generate_kline_image"
            { c.args with kline_data := some st.kline_data })) := by
    simp only [pattern_agent_node, himg0, patternPhaseA, hA, patternToolLoop,
      hc, hcn, hfind, htr]
  refine ⟨hgen, ?_, ?_⟩
  · rw [hnode]
  · rw [hnode]
    intro e he ms
    simp only [List.mem_append, List.mem_replicate] at he
    rcases he with ⟨-, he⟩ | ⟨-, he⟩ <;> subst he <;> simp

/-- Concrete closed instance of `pattern_missing_image_aborts`. -/
def c6Resp : AIMsg :=
  ⟨"开始生成图像", [⟨"t1", "generate_kline_image", ⟨none, []⟩⟩]⟩

def c6Env : PEnv :=
  { toolLLM := fun _ => .ok c6Resp
    graphLLM := fun _ => .ok ⟨"不应被调用", []⟩
    tool := fun _ _ _ => ⟨none⟩ }

def c6St : PatternState :=
  { time_frame := "15min", kline_data := [1, 2], pattern_image := none
    messages := [] }

theorem pattern_missing_image_aborts_witness :
    (pattern_agent_node c6Env c6St).1 = .error "多次重试后仍未生成图像" ∧
    (∀ e ∈ (pattern_agent_node c6Env c6St).2, ∀ ms, e ≠ Event.graphCall ms) := by
  have h := pattern_missing_image_aborts c6Env c6St c6Resp
    ⟨"t1", "generate_kline_image", ⟨none, []⟩⟩
    rfl rfl rfl rfl (fun i args => rfl)
  exact ⟨h.2.1, h.2.2⟩

/-- Claim C7 evaluated at the failing input (a `code_bug` exhibit): the
grounded Phase-B call raises an error whose text does contain
"at least one message", yet the human-only retry of lines 148-157 never
runs — the enveloping `invoke_with_retry` swallows every exception from
`graph_llm.invoke` and, once exhausted, raises
`RuntimeError("超过最大重试次数")`, whose text does not contain the
substring, so the outer handler re-raises.  Both agents therefore fail
with the envelope error and every grounded call in the trace still
carries the full `[system, human]` transcript; the degraded retry branch
is unreachable. -/
def c7Err : String :=
  "Anthropic API error: messages: at least one message is required"

def c7PEnv : PEnv :=
  { toolLLM := fun _ => .ok ⟨"unused", []⟩
    graphLLM := fun _ => .error c7Err
    tool := fun _ _ _ => ⟨none⟩ }

def c7PSt : PatternState :=
  { time_frame := "15min", kline_data := [1], pattern_image := some "IMG"
    messages := [] }

def c7TEnv : TEnv :=
  { toolLLM := fun _ => .ok ⟨"unused", []⟩
    graphLLM := fun _ => .error c7Err
    tool := fun _ _ _ => ⟨none⟩ }

def c7TSt : TrendState :=
  { time_frame := "15min", kline_data := [1], trend_image := some "IMG"
    messages := [] }

/-- Claim C7 at the failing input: the raw grounded-call error text
contains "at least one message", yet both agents end with
`RuntimeError("超过最大重试次数")` from the envelope and every grounded
call in the trace still carries the full `[system, human]` transcript —
the human-only retry never runs. -/
theorem phaseB_structure_retry_unreachable :
    isMsgStructureError c7Err = true ∧
    (pattern_agent_node c7PEnv c7PSt).1 = .error "超过最大重试次数" ∧
    (pattern_agent_node c7PEnv c7PSt).2 =
      List.replicate 3 (Event.graphCall
        [Msg.system patternPhaseBSystem, patternHumanMsg "15min" "IMG"]) ∧
    (trend_agent_node c7TEnv c7TSt).1 = .error "超过最大重试次数" ∧
    (trend_agent_node c7TEnv c7TSt).2 =
      List.replicate 3 (Event.graphCall
        [Msg.system trendPhaseBSystem, trendHumanMsg "15min" "IMG"]) := by
  refine ⟨by decide, ?_, ?_, ?_, ?_⟩ <;> rfl

theorem patternPhaseB_events (env : PEnv) (st : PatternState)
    (img : String) (gCtr : Nat) :
    ∀ e ∈ (patternPhaseB env st img gCtr).2,
    ∃ ms, e = .graphCall ms ∧ patternHumanMsg st.time_frame img ∈ ms := by
  intro e he
  simp only [patternPhaseB] at he
  cases hb : (pattern_invoke_with_retry
      (fun i => env.graphLLM (gCtr + i)) 3).result with
  | ok fr =>
    simp only [hb] at he
    rw [List.eq_of_mem_replicate he]
    exact ⟨_, rfl, by simp⟩
  | error e0 =>
    simp only [hb] at he
    by_cases hm : isMsgStructureError e0
    · simp only [hm, if_true] at he
      cases hb2 : (pattern_invoke_with_retry
          (fun i => env.graphLLM (gCtr + (pattern_invoke_with_retry
            (fun i => env.graphLLM (gCtr + i)) 3).calls + i)) 3).result with
      | ok fr =>
        simp only [hb2, List.mem_append] at he
        rcases he with he | he
        · rw [List.eq_of_mem_replicate he]
          exact ⟨_, rfl, by simp⟩
        · rw [List.eq_of_mem_replicate he]
          exact ⟨_, rfl, by simp⟩
      | error e2 =>
        simp only [hb2, List.mem_append] at he
        rcases he with he | he
        · rw [List.eq_of_mem_replicate he]
          exact ⟨_, rfl, by simp⟩
        · rw [List.eq_of_mem_replicate he]
          exact ⟨_, rfl, by simp⟩
    · simp only [hm, Bool.false_eq_true, if_false] at he
      rw [List.eq_of_mem_replicate he]
      exact ⟨_, rfl, by simp⟩

theorem trendPhaseB_events (env : TEnv) (st : TrendState)
    (img : String) (gCtr : Nat) :
    ∀ e ∈ (trendPhaseB env st img gCtr).2,
    ∃ ms, e = .graphCall ms ∧ trendHumanMsg st.time_frame img ∈ ms := by
  intro e he
  simp only [trendPhaseB] at he
  cases hb : (invoke_with_retry (fun i => env.graphLLM (gCtr + i)) 3).result with
  | ok fr =>
    simp only [hb] at he
    rw [List.eq_of_mem_replicate he]
    exact ⟨_, rfl, by simp⟩
  | error e0 =>
    simp only [hb] at he
    by_cases hm : isMsgStructureError e0
    · simp only [hm, if_true] at he
      cases hb2 : (invoke_with_retry
          (fun i => env.graphLLM (gCtr + (invoke_with_retry
            (fun i => env.graphLLM (gCtr + i)) 3).calls + i)) 3).result with
      | ok fr =>
        simp only [hb2, List.mem_append] at he
        rcases he with he | he
        · rw [List.eq_of_mem_replicate he]
          exact ⟨_, rfl, by simp⟩
        · rw [List.eq_of_mem_replicate he]
          exact ⟨_, rfl, by simp⟩
      | error e2 =>
        simp only [hb2, List.mem_append] at he
        rcases he with he | he
        · rw [List.eq_of_mem_replicate he]
          exact ⟨_, rfl, by simp⟩
        · rw [List.eq_of_mem_replicate he]
          exact ⟨_, rfl, by simp⟩
    · simp only [hm, Bool.false_eq_true, if_false] at he
      rw [List.eq_of_mem_replicate he]
      exact ⟨_, rfl, by simp⟩

/-- Claim C8: when the state already holds a non-empty `pattern_image`
(resp. `trend_image`), the pattern (resp. trend) agent invokes no tool
and makes no Phase-A backend call: every event of the run is a grounded
graph-backend call whose transcript embeds the artifact supplied in
state. -/
theorem artifact_preempts_generation (penv : PEnv) (pst : PatternState)
    (tenv : TEnv) (tst : TrendState) (pimg timg : String)
    (hp : pst.pattern_image = some pimg) (hpt : pyFalsy pimg = false)
    (ht : tst.trend_image = some timg) (htt : pyFalsy timg = false) :
    (∀ e ∈ (pattern_agent_node penv pst).2,
      ∃ ms, e = .graphCall ms ∧ patternHumanMsg pst.time_frame pimg ∈ ms) ∧
    (∀ e ∈ (trend_agent_node tenv tst).2,
      ∃ ms, e = .graphCall ms ∧ trendHumanMsg tst.time_frame timg ∈ ms) := by
  constructor
  · intro e he
    simp only [pattern_agent_node, hp, hpt, Bool.false_eq_true, if_false] at he
    exact patternPhaseB_events penv pst pimg 0 e he
  · intro e he
    simp only [trend_agent_node, ht, htt, Bool.false_eq_true, if_false] at he
    exact trendPhaseB_events tenv tst timg 0 e he

/-- Concrete closed instance of `artifact_preempts_generation`. -/
def c8PEnv : PEnv :=
  { toolLLM := fun _ => .ok ⟨"不应被调用", []⟩
    graphLLM := fun _ => .ok ⟨"匹配双底形态", []⟩
    tool := fun _ _ _ => ⟨some "GEN"⟩ }

def c8PSt : PatternState :=
  { time_frame := "15min", kline_data := [1], pattern_image := some "IMG"
    messages := [] }

def c8TEnv : TEnv :=
  { toolLLM := fun _ => .ok ⟨"不应被调用", []⟩
    graphLLM := fun _ => .ok ⟨"短期上涨", []⟩
    tool := fun _ _ _ => ⟨some "GEN"⟩ }

def c8TSt : TrendState :=
  { time_frame := "15min", kline_data := [1], trend_image := some "IMG"
    messages := [] }

theorem artifact_preempts_generation_witness :
    (∃ ms, (Event.graphCall
        [Msg.system patternPhaseBSystem, patternHumanMsg "15min" "IMG"]) =
        Event.graphCall ms ∧ patternHumanMsg "15min" "IMG" ∈ ms) ∧
    (∃ ms, (Event.graphCall
        [Msg.system trendPhaseBSystem, trendHumanMsg "15min" "IMG"]) =
        Event.graphCall ms ∧ trendHumanMsg "15min" "IMG" ∈ ms) := by
  have h := artifact_preempts_generation c8PEnv c8PSt c8TEnv c8TSt "IMG" "IMG"
    rfl (by decide) rfl (by decide)
  constructor
  · refine h.1 _ ?_
    have htr : (pattern_agent_node c8PEnv c8PSt).2 =
        [Event.graphCall
          [Msg.system patternPhaseBSystem, patternHumanMsg "15min" "IMG"]] := rfl
    rw [htr]
    exact List.mem_singleton_self _
  · refine h.2 _ ?_
    have htr : (trend_agent_node c8TEnv c8TSt).2 =
        [Event.graphCall
          [Msg.system trendPhaseBSystem, trendHumanMsg "15min" "IMG"]] := rfl
    rw [htr]
    exact List.mem_singleton_self _

/-- Claim C9, amended — the part that holds: the indicator agent's step is
append-only — the transcript it received appears unchanged and in order
as a prefix of the `messages` it returns (when the incoming transcript
is empty, the seeded human turn simply extends the empty prefix). -/
theorem indicator_messages_append_only (env : IndEnv) (st : IndState)
    (out : IndOut) (h : (indicator_agent_node env st).1 = .ok out) :
    st.messages <+: out.messages := by
  have hpre := indicatorCore_prefix env st _ out h
  by_cases hm : st.messages.isEmpty
  · have hnil : st.messages = [] := by
      cases hd : st.messages with
      | nil => rfl
      | cons a l => rw [hd] at hm; simp at hm
    rw [hnil]
    exact List.nil_prefix
  · simpa [hm] using hpre

/-- Concrete closed instance of `indicator_messages_append_only`. -/
def c9wEnv : IndEnv :=
  { llm := fun _ => .ok ⟨"done", []⟩, tool := fun _ _ _ => "\x7b\x7d" }

def c9wSt : IndState :=
  { time_frame := "5min", kline_data := [1]
    messages := [Msg.human (.str "历史对话")] }

theorem indicator_messages_append_only_witness :
    [Msg.human (MsgContent.str "历史对话")] <+:
      [Msg.human (MsgContent.str "历史对话"), Msg.ai ⟨"done", []⟩,
        Msg.ai ⟨"done", []⟩] :=
  indicator_messages_append_only c9wEnv c9wSt
    ⟨[Msg.human (MsgContent.str "历史对话"), Msg.ai ⟨"done", []⟩,
      Msg.ai ⟨"done", []⟩], "done"⟩
    (by decide)

/-- Claim C9, counterexample: the trend agent discards the incoming
transcript — with a non-empty incoming `messages` and a pre-supplied
artifact, the returned `messages` is the freshly built
`[system, human-with-image, response]`, of which the incoming turns are
not a prefix. -/
def c9Env : TEnv :=
  { toolLLM := fun _ => .ok ⟨"unused", []⟩
    graphLLM := fun _ => .ok ⟨"短期上涨", []⟩
    tool := fun _ _ _ => ⟨none⟩ }

def c9St : TrendState :=
  { time_frame := "1hour", kline_data := [1], trend_image := some "IMG"
    messages := [Msg.human (.str "之前的对话")] }

/-- Claim C9, counterexample: with a non-empty incoming transcript, the
trend agent's returned `messages` does not extend it — the incoming
turns are not a prefix of the result. -/
theorem trend_messages_not_extension :
    Except.map (fun o => c9St.messages.isPrefixOf o.messages)
      ((trend_agent_node c9Env c9St).1) = Except.ok false := by decide

/-- Count of tool invocations recorded in a trace. -/
def toolCount : List Event → Nat
  | [] => 0
  | .toolInv _ _ :: rest => toolCount rest + 1
  | .llmCall _ :: rest => toolCount rest
  | .graphCall _ :: rest => toolCount rest

/-- Claim C10: in the trend agent's Phase A, a tool result lacking the
`trend_image` key is never retried and raises no error — the tool runs
exactly once per request and, with no image produced, the agent silently
proceeds to the ungrounded fallback call whose free text becomes
`trend_report`, with `trend_image` and `trend_image_description` both
empty — in contrast to the pattern agent's 3-attempt missing-image
retry. -/
theorem trend_missing_image_silent (env : TEnv) (st : TrendState)
    (r0 r1 : AIMsg) (c : ToolCall)
    (himg0 : st.trend_image = none)
    (h0 : env.toolLLM 0 = .ok r0)
    (hc : r0.tool_calls = [c])
    (hcn : c.name = "generate_trend_image")
    (htool : (env.tool "generate_trend_image" 0
      { c.args with kline_data := some st.kline_data }).trend_image = none)
    (h1 : env.toolLLM 1 = .ok r1) :
    Except.map TOut.trend_report (trend_agent_node env st).1 =
      .ok r1.content ∧
    Except.map TOut.trend_image (trend_agent_node env st).1 = .ok none ∧
    Except.map TOut.trend_image_description (trend_agent_node env st).1 =
      .ok none ∧
    toolCount (trend_agent_node env st).2 = 1 := by
  have hA : invoke_with_retry (fun i => env.toolLLM i) 3 = ⟨.ok r0, 1, 0⟩ := by
    simp [invoke_with_retry, trendRetryGo, h0]
  have hF : invoke_with_retry (fun i => env.toolLLM (1 + i)) 3 =
      ⟨.ok r1, 1, 0⟩ := by
    simp [invoke_with_retry, trendRetryGo, h1]
  have hfind : trendTools.find? (fun t => t == "generate_trend_image") =
      some "generate_trend_image" := rfl
  simp only [trend_agent_node, himg0, trendPhaseA, hA, trendToolLoop, hc, hcn,
    hfind, htool, Except.map, trendFallbackB, hF, trendOut, optTruthy,
    toolCount, List.replicate]
  refine ⟨trivial, trivial, ?_, trivial⟩
  rfl

/-- Concrete closed instance of `trend_missing_image_silent`. -/
def c10Env : TEnv :=
  { toolLLM := fun i =>
      if i = 0 then
        .ok ⟨"生成趋势图", [⟨"t1", "generate_trend_image", ⟨none, []⟩⟩]⟩
      else .ok ⟨"无图分析: 震荡", []⟩
    graphLLM := fun _ => .ok ⟨"不应被调用", []⟩
    tool := fun _ _ _ => ⟨none⟩ }

def c10St : TrendState :=
  { time_frame := "15min", kline_data := [1, 2], trend_image := none
    messages := [] }

theorem trend_missing_image_silent_witness :
    Except.map TOut.trend_report (trend_agent_node c10Env c10St).1 =
      .ok "无图分析: 震荡" ∧
    Except.map TOut.trend_image (trend_agent_node c10Env c10St).1 = .ok none ∧
    Except.map TOut.trend_image_description (trend_agent_node c10Env c10St).1 =
      .ok none ∧
    toolCount (trend_agent_node c10Env c10St).2 = 1 :=
  trend_missing_image_silent c10Env c10St
    ⟨"生成趋势图", [⟨"t1", "generate_trend_image", ⟨none, []⟩⟩]⟩
    ⟨"无图分析: 震荡", []⟩
    ⟨"t1", "generate_trend_image", ⟨none, []⟩⟩
    rfl rfl rfl rfl rfl rfl

end QuantAgent
